import Mathlib

/-!
Shallow embedding of the MailchimpSync location-resolution and linking logic:
the matching engine, the pending-OAuth session store, the connection mapping
repository (src/db/index.js), the OAuth orchestrator routes
(src/routes/oauth.js) and the contact webhook (src/routes/webhook.js).

Conventions of the embedding:
* SQL timestamps are natural numbers; `NOW()` is an explicit `now` parameter.
* Each table is a Lean list of row structures; SQL filters become
  `List.filter`, `ORDER BY` becomes a stable insertion sort (matching the
  stable sorts performed by PostgreSQL result ordering and JS `Array.sort`).
* The pg_trgm `similarity` function is an injected capability
  `sim : String -> String -> Rat`, as it is external to the repository.
* Fallible infrastructure (a database pool, the Mailchimp HTTP client) is
  modelled with `Except DbError`; a JS `try/catch` block becomes a `match`
  on the `Except` value.
* JS truthiness on optional strings (`undefined`, `null` and `""` are all
  falsy) is modelled by `jsTruthy`.
* Rational score constants are given in reduced-fraction form so that they
  evaluate by kernel reduction; `ratHalf = 1/2` and `ratThreshold = 3/10`
  are proved below.
-/

namespace MailchimpSync

/-- Lowercasing as performed by SQL `LOWER()` and JS `toLowerCase()`
(character-wise, via `Char.toLower`). -/
def lowerStr (s : String) : String := ⟨s.data.map Char.toLower⟩

/-- JS truthiness for an optional string: `undefined`/`null` and the empty
string are falsy. -/
def jsTruthy (o : Option String) : Bool :=
  match o with
  | none => false
  | some s => !(s == "")

/-- JS `x || null` applied to a string: the empty string collapses to null. -/
def strOrNone (s : String) : Option String :=
  if s == "" then none else some s

/-- JS `a || b` on optional strings (left operand wins unless falsy). -/
def jsOr (a b : Option String) : Option String :=
  match a with
  | none => b
  | some s => if s == "" then b else some s

/-- Character-list infix test: `needle` occurs contiguously inside `hay`. -/
def infixOf (needle hay : List Char) : Bool :=
  match hay with
  | [] => needle.isEmpty
  | _ :: t => needle.isPrefixOf hay || infixOf needle t

/-- Case-insensitive substring test, as in
`LOWER(a) LIKE '%' || LOWER(b) || '%'`: `a` contains `b`. -/
def strContains (a b : String) : Bool :=
  infixOf (lowerStr b).data (lowerStr a).data

/-- The rational number one half, the fixed `match_score` of the contains
strategy (`0.5 as match_score` in the SQL). -/
def ratHalf : ℚ := ⟨1, 2, by norm_num, by norm_num⟩

/-- The rational number three tenths, the default trigram-similarity
threshold (`0.3`) used by the fuzzy strategies. -/
def ratThreshold : ℚ := ⟨3, 10, by norm_num, by norm_num⟩

theorem ratHalf_eq : ratHalf = 1 / 2 := by
  rw [show ratHalf = Rat.mk' 1 2 (by norm_num) (by norm_num) from rfl,
    Rat.mk'_eq_divInt, Rat.divInt_eq_div]
  norm_num

theorem ratThreshold_eq : ratThreshold = 3 / 10 := by
  rw [show ratThreshold = Rat.mk' 3 10 (by norm_num) (by norm_num) from rfl,
    Rat.mk'_eq_divInt, Rat.divInt_eq_div]
  norm_num

/-- A row of the external `vivaspot_sites` registry table: a candidate site
with its device identifiers (`mac_addresses`) and contact emails
(`merchant_emails`). -/
structure Site where
  id : Nat
  restaurant_name : String
  mac_addresses : List String
  merchant_emails : List String
deriving DecidableEq, Repr

/-- The `match_type` tag attached by the three name-matching queries. -/
inductive MatchType where
  | exact
  | fuzzy
  | contains
deriving DecidableEq, Repr

/-- A site row augmented with `match_score` and `match_type`, as returned by
the name-matching queries of `findAllSitesByRestaurantName`. -/
structure MatchRow where
  site : Site
  match_score : ℚ
  match_type : MatchType
deriving DecidableEq, Repr

/-- An infrastructure failure (storage unreachable, upstream API error). -/
inductive DbError where
  | storage
deriving DecidableEq, Repr

/-- The state of the site-registry database connection: either the table of
sites, or an unreachable store whose every query raises. -/
abbrev Store := Except DbError (List Site)

/-- Similarity capability injected by the storage layer (pg_trgm). -/
abbrev Sim := String → String → ℚ

/-- Stable descending insertion by a rational score (the behaviour of
`ORDER BY score DESC` and of JS `sort((a, b) => b.score - a.score)`). -/
def insertDescBy (score : α → ℚ) (r : α) : List α → List α
  | [] => [r]
  | x :: xs =>
    if score x < score r then r :: x :: xs else x :: insertDescBy score r xs

/-- Stable descending sort by a rational score. -/
def sortDescBy (score : α → ℚ) (l : List α) : List α :=
  l.foldr (insertDescBy score) []

/-- Stable ascending insertion of a site by `restaurant_name`
(for `ORDER BY restaurant_name`). -/
def insertNameAsc (s : Site) : List Site → List Site
  | [] => [s]
  | x :: xs =>
    if s.restaurant_name < x.restaurant_name then s :: x :: xs
    else x :: insertNameAsc s xs

/-- Stable ascending sort of sites by `restaurant_name`. -/
def sortByName (l : List Site) : List Site :=
  l.foldr insertNameAsc []

/-- Embedding of `findAllSitesByEmail`: every registry site whose
`merchant_emails` array contains the lowercased input email, ordered by
restaurant name; any storage error is caught and folded into `[]`. -/
def findAllSitesByEmail (store : Store) (email : String) : List Site :=
  match store with
  | .ok reg =>
    sortByName (reg.filter (fun s => s.merchant_emails.contains (lowerStr email)))
  | .error _ => []

/-- Rows of the exact-match query of `findAllSitesByRestaurantName`:
case-insensitive full-string equality, score `1.0`, type `exact`. -/
def exactRows (reg : List Site) (q : String) : List MatchRow :=
  (reg.filter (fun s => lowerStr s.restaurant_name == lowerStr q)).map
    (fun s => ⟨s, 1, .exact⟩)

/-- Rows of the fuzzy query of `findAllSitesByRestaurantName`: trigram
similarity strictly above the threshold, scored by the similarity itself,
ordered descending. -/
def fuzzyRows (sim : Sim) (reg : List Site) (q : String) (threshold : ℚ) :
    List MatchRow :=
  sortDescBy (fun r => r.match_score)
    ((reg.filter (fun s => threshold < sim s.restaurant_name q)).map
      (fun s => ⟨s, sim s.restaurant_name q, .fuzzy⟩))

/-- Rows of the contains query of `findAllSitesByRestaurantName`:
case-insensitive substring in either direction, fixed score `0.5`. -/
def containsRows (reg : List Site) (q : String) : List MatchRow :=
  (reg.filter
      (fun s => strContains s.restaurant_name q || strContains q s.restaurant_name)).map
    (fun s => ⟨s, ratHalf, .contains⟩)

/-- JS `Map.prototype.set` keyed by `site.id` on an association list kept in
insertion order: overwrite in place if the key exists, else append. -/
def mset (m : List MatchRow) (r : MatchRow) : List MatchRow :=
  if m.any (fun x => x.site.id == r.site.id) then
    m.map (fun x => if x.site.id == r.site.id then r else x)
  else m ++ [r]

/-- Guarded insertion used for the fuzzy and contains phases:
`if (!matches.has(row.id)) matches.set(row.id, row)`. -/
def msetIfAbsent (m : List MatchRow) (r : MatchRow) : List MatchRow :=
  if m.any (fun x => x.site.id == r.site.id) then m else m ++ [r]

/-- Embedding of `findAllSitesByRestaurantName`: run the exact, fuzzy and
contains queries, merge them into a Map keyed by site id (exact inserted
unconditionally first, then fuzzy and contains only for unseen ids), sort
the values descending by `match_score`; a storage error is caught and folded
into `[]`. -/
def findAllSitesByRestaurantName (sim : Sim) (store : Store) (q : String)
    (threshold : ℚ) : List MatchRow :=
  match store with
  | .error _ => []
  | .ok reg =>
    let m1 := (exactRows reg q).foldl mset []
    let m2 := (fuzzyRows sim reg q threshold).foldl msetIfAbsent m1
    let m3 := (containsRows reg q).foldl msetIfAbsent m2
    sortDescBy (fun r => r.match_score) m3

/-- The `matchMethod` tag of `findCandidateSites` (`'email' | 'name' | 'none'`;
the source's `'none'` is `nomatch` here). -/
inductive MatchMethod where
  | email
  | name
  | nomatch
deriving DecidableEq, Repr

/-- A candidate row as produced by `findCandidateSites`: the email strategy
returns plain site rows, the name strategy returns score-augmented rows. -/
abbrev CandRow := Site ⊕ MatchRow

/-- The underlying site of a candidate row. -/
def candSite : CandRow → Site
  | .inl s => s
  | .inr r => r.site

/-- Result shape of `findCandidateSites`. -/
structure CandidateResult where
  sites : List CandRow
  matchMethod : MatchMethod
deriving DecidableEq

/-- The body of `findCandidateSites` (inside its `try`): email strategy
first and short-circuit if non-empty, then name strategy, else the empty
`nomatch` result. -/
def findCandidateSitesBody (sim : Sim) (store : Store) (accountName : String)
    (loginEmail : Option String) : CandidateResult :=
  let nameStep : CandidateResult :=
    let nm := findAllSitesByRestaurantName sim store accountName ratThreshold
    if nm.isEmpty then ⟨[], .nomatch⟩ else ⟨nm.map Sum.inr, .name⟩
  if jsTruthy loginEmail then
    let em := findAllSitesByEmail store (loginEmail.getD "")
    if em.isEmpty then nameStep else ⟨em.map Sum.inl, .email⟩
  else nameStep

/-- Embedding of `findCandidateSites`. Its body only calls lookups that
catch their own storage errors, and its own `catch` returns the `nomatch`
result, so the function never propagates an error: it always returns `.ok`. -/
def findCandidateSites (sim : Sim) (store : Store) (accountName : String)
    (loginEmail : Option String) : Except DbError CandidateResult :=
  .ok (findCandidateSitesBody sim store accountName loginEmail)

/-- A row of the `mailchimp_connections` table (`LocationMapping`):
`mac_address` is the unique key, `audience_*` and `source_tag` are nullable. -/
structure Conn where
  mac_address : String
  access_token : String
  data_center : String
  account_id : String
  account_name : String
  audience_id : Option String
  audience_name : Option String
  source_tag : Option String
  created_at : Nat
  updated_at : Nat
deriving DecidableEq, Repr

/-- The argument record of `upsertConnection` / one element of the
`bulkUpsertConnections` batch. -/
structure ConnInput where
  macAddress : String
  accessToken : String
  dataCenter : String
  accountId : String
  accountName : String
  audienceId : Option String
  audienceName : Option String
  sourceTag : Option String
deriving DecidableEq, Repr

/-- The row written for an input: all mutable fields from the input,
`created_at` preserved (or initialised for a fresh row), `updated_at = NOW()`. -/
def connRow (c : ConnInput) (created now : Nat) : Conn :=
  ⟨c.macAddress, c.accessToken, c.dataCenter, c.accountId, c.accountName,
    c.audienceId, c.audienceName, c.sourceTag, created, now⟩

/-- Embedding of `upsertConnection`: `INSERT ... ON CONFLICT (mac_address)
DO UPDATE SET <all mutable fields>, updated_at = NOW() RETURNING *`.
Returns the new table and the returned row. -/
def upsertConnection (db : List Conn) (now : Nat) (c : ConnInput) :
    List Conn × Conn :=
  match db.find? (fun r => r.mac_address == c.macAddress) with
  | some old =>
    let r := connRow c old.created_at now
    (db.map (fun x => if x.mac_address == c.macAddress then r else x), r)
  | none =>
    let r := connRow c now now
    (db ++ [r], r)

/-- Inner loop of `bulkUpsertConnections`: sequential single-row upserts on a
working copy of the table; `fails` marks an input whose statement raises. -/
def bulkGo (fails : ConnInput → Bool) (now : Nat) :
    List Conn → List Conn → List ConnInput →
    Except DbError (List Conn × List Conn)
  | db, results, [] => .ok (db, results.reverse)
  | db, results, c :: rest =>
    if fails c then .error .storage
    else
      let (db2, r) := upsertConnection db now c
      bulkGo fails now db2 (r :: results) rest

/-- Embedding of `bulkUpsertConnections`: `BEGIN`, one upsert per element,
`COMMIT`; on any failure `ROLLBACK` (the table reverts to its pre-call
state) and the error is rethrown to the caller. -/
def bulkUpsertConnections (fails : ConnInput → Bool) (db : List Conn)
    (now : Nat) (conns : List ConnInput) :
    List Conn × Except DbError (List Conn) :=
  match bulkGo fails now db [] conns with
  | .ok (db2, results) => (db2, .ok results)
  | .error e => (db, .error e)

/-- Embedding of `getConnectionByMac`:
`SELECT * WHERE LOWER(mac_address) = LOWER($1)`, first row or null. -/
def getConnectionByMac (db : List Conn) (mac : String) : Option Conn :=
  db.find? (fun c => lowerStr c.mac_address == lowerStr mac)

/-- Embedding of `findConnectionsByAccountName`: rows with
`similarity(account_name, $1) > threshold` together with that score, ordered
by score descending, `LIMIT 5`. -/
def findConnectionsByAccountName (sim : Sim) (db : List Conn) (q : String)
    (threshold : ℚ) : List (Conn × ℚ) :=
  (sortDescBy (fun p => p.2)
      ((db.filter (fun c => threshold < sim c.account_name q)).map
        (fun c => (c, sim c.account_name q)))).take 5

/-- Account metadata fetched from `/oauth2/metadata`. -/
structure Metadata where
  accountId : String
  accountName : String
  loginEmail : Option String
  dataCenter : String
deriving DecidableEq

/-- The JSON blob `JSON.stringify({ accessToken, metadata, redirect_url,
audienceId?, audienceName?, sourceTag? })` stored in `redirect_url` between
workflow steps (absent keys are `none`). -/
structure SessionBlob where
  accessToken : String
  metadata : Metadata
  redirect_url : Option String
  audienceId : Option String
  audienceName : Option String
  sourceTag : Option String
deriving DecidableEq

/-- Content of the `redirect_url` column of `pending_oauth`: either a plain
redirect URL (as stored by `/oauth/authorize`) or the serialized JSON session
blob the orchestrator stores for a later step. -/
inductive PayloadVal where
  | raw (s : String)
  | blob (b : SessionBlob)
deriving DecidableEq

/-- A row of the `pending_oauth` table; `state` is the unique token. -/
structure PendingRow where
  state : String
  mac_address : String
  redirect_url : Option PayloadVal
  expires_at : Nat
deriving DecidableEq

/-- JSON.parse of the `redirect_url` column followed by destructuring:
succeeds exactly on a stored session blob, raises otherwise. -/
def parseBlob : Option PayloadVal → Except DbError SessionBlob
  | some (.blob b) => .ok b
  | _ => .error .storage

/-- Embedding of `consumePendingOAuth`:
`DELETE FROM pending_oauth WHERE state = $1 AND expires_at > NOW()
RETURNING *`, returning the new table and `rows[0]` (or null). The fetch and
the delete are one atomic statement. -/
def consumePendingOAuth (db : List PendingRow) (now : Nat) (state : String) :
    List PendingRow × Option PendingRow :=
  ((db.filter (fun r => !(r.state == state && decide (now < r.expires_at)))),
    (db.filter (fun r => r.state == state && decide (now < r.expires_at))).head?)

/-- Non-consuming session read used by the selection steps:
`SELECT * FROM pending_oauth WHERE state = $1 AND expires_at > NOW()`,
first row or none. -/
def getPendingValid (db : List PendingRow) (now : Nat) (state : String) :
    Option PendingRow :=
  (db.filter (fun r => r.state == state && decide (now < r.expires_at))).head?

/-- `DELETE FROM pending_oauth WHERE state = $1`. -/
def deletePendingByState (db : List PendingRow) (state : String) :
    List PendingRow :=
  db.filter (fun r => !(r.state == state))

/-- The raw-URL view of a `redirect_url` column (the destructured
`redirect_url` a handler forwards into a session blob). -/
def rawUrl : Option PayloadVal → Option String
  | some (.raw s) => some s
  | _ => none

/-- A Mailchimp audience as returned by `getAudiences`. -/
structure Audience where
  id : String
  name : String
deriving DecidableEq

/-- The capabilities and per-request data an orchestrator handler runs with:
the similarity function, the site-registry store, the Mailchimp client
calls, the failure oracle for bulk statements, the clock, and the fresh
random token this request would generate with `crypto.randomBytes`. -/
structure Env where
  sim : Sim
  store : Store
  exchangeCodeForToken : String → Except DbError String
  getAccountMetadata : String → Except DbError Metadata
  getAudiences : String → String → Except DbError (List Audience)
  bulkFails : ConnInput → Bool
  now : Nat
  fresh : String

/-- The mutable database state an orchestrator handler reads and writes. -/
structure World where
  conns : List Conn
  pending : List PendingRow
deriving DecidableEq

/-- The query parameters of a redirect to the manual-entry `/setup` page. -/
structure SetupParams where
  accountId : String
  accountName : String
  audienceId : Option String
  audienceName : Option String
  accessToken : String
  dataCenter : String
  siteName : Option String
deriving DecidableEq

/-- The observable outcome of an orchestrator handler. -/
inductive Response where
  | authFailed
  | missingParams
  | authExpired
  | serverError
  | noAudiences
  | successPage
  | sessionExpired
  | locationNotFound
  | redirectSetup (p : SetupParams)
  | locationSelect (sites : List CandRow) (state : String)
  | audienceSelect (auds : List Audience) (state : String)
deriving DecidableEq

/-- The session TTL: `NOW() + INTERVAL '10 minutes'`, in seconds. -/
def ttl : Nat := 600

/-- Insert a `pending_oauth` row; the `UNIQUE` constraint on `state` makes
the insert raise on a duplicate token (caught by the handler's `catch`). -/
def insertPending (db : List PendingRow) (row : PendingRow) :
    Except DbError (List PendingRow) :=
  if db.any (fun r => r.state == row.state) then .error .storage
  else .ok (db ++ [row])

/-- Embedding of `GET /oauth/callback` (the newer handler with candidate
resolution): consume the state token, exchange the code, fetch metadata and
audiences, then either commit directly, bulk auto-map a uniquely matched
site, persist a location-selection session, or persist an
audience-selection session. -/
def oauthCallback (env : Env) (w : World)
    (code state oauthError : Option String) : World × Response :=
  if jsTruthy oauthError then (w, .authFailed)
  else if !(jsTruthy code && jsTruthy state) then (w, .missingParams)
  else
    let (pending1, popt) := consumePendingOAuth w.pending env.now (state.getD "")
    let w1 : World := { w with pending := pending1 }
    match popt with
    | none => (w1, .authExpired)
    | some p =>
      match env.exchangeCodeForToken (code.getD "") with
      | .error _ => (w1, .serverError)
      | .ok accessToken =>
      match env.getAccountMetadata accessToken with
      | .error _ => (w1, .serverError)
      | .ok md =>
      match env.getAudiences accessToken md.dataCenter with
      | .error _ => (w1, .serverError)
      | .ok audiences =>
      match audiences with
      | [] => (w1, .noAudiences)
      | [aud] =>
        match findCandidateSites env.sim env.store md.accountName md.loginEmail with
        | .error _ => (w1, .serverError)
        | .ok cres =>
        match cres.sites with
        | [] =>
          if !(p.mac_address == "") && !(p.mac_address == "auto") then
            let (conns2, _) := upsertConnection w1.conns env.now
              { macAddress := p.mac_address, accessToken := accessToken,
                dataCenter := md.dataCenter, accountId := md.accountId,
                accountName := md.accountName, audienceId := some aud.id,
                audienceName := some aud.name, sourceTag := none }
            ({ w1 with conns := conns2 }, .successPage)
          else
            (w1, .redirectSetup ⟨md.accountId, md.accountName, some aud.id,
              some aud.name, accessToken, md.dataCenter, none⟩)
        | [c] =>
          let site := candSite c
          if !site.mac_addresses.isEmpty then
            let inputs := site.mac_addresses.map (fun mac =>
              { macAddress := lowerStr mac, accessToken := accessToken,
                dataCenter := md.dataCenter, accountId := md.accountId,
                accountName := md.accountName, audienceId := some aud.id,
                audienceName := some aud.name,
                sourceTag := strOrNone site.restaurant_name : ConnInput })
            match bulkUpsertConnections env.bulkFails w1.conns env.now inputs with
            | (conns2, .ok _) => ({ w1 with conns := conns2 }, .successPage)
            | (conns2, .error _) => ({ w1 with conns := conns2 }, .serverError)
          else
            (w1, .redirectSetup ⟨md.accountId, md.accountName, some aud.id,
              some aud.name, accessToken, md.dataCenter,
              some site.restaurant_name⟩)
        | _ =>
          let row : PendingRow :=
            { state := env.fresh,
              mac_address := if p.mac_address == "" then "auto" else p.mac_address,
              redirect_url := some (.blob
                { accessToken := accessToken, metadata := md,
                  redirect_url := rawUrl p.redirect_url,
                  audienceId := some aud.id, audienceName := some aud.name,
                  sourceTag := none }),
              expires_at := env.now + ttl }
          match insertPending w1.pending row with
          | .error _ => (w1, .serverError)
          | .ok pending2 =>
            ({ w1 with pending := pending2 },
              .locationSelect cres.sites env.fresh)
      | _ =>
        let row : PendingRow :=
          { state := env.fresh, mac_address := p.mac_address,
            redirect_url := some (.blob
              { accessToken := accessToken, metadata := md,
                redirect_url := rawUrl p.redirect_url,
                audienceId := none, audienceName := none, sourceTag := none }),
            expires_at := env.now + ttl }
        match insertPending w1.pending row with
        | .error _ => (w1, .serverError)
        | .ok pending2 =>
          ({ w1 with pending := pending2 },
            .audienceSelect audiences env.fresh)

/-- Embedding of `POST /oauth/select-audience`: read (without consuming) the
valid session, parse its blob, resolve candidates, then commit, hand off to
manual setup, or persist a location-selection session; every completed
branch deletes the presented token. -/
def selectAudience (env : Env) (w : World)
    (state audience_id audience_name source_tag : Option String) :
    World × Response :=
  if !(jsTruthy state && jsTruthy audience_id) then (w, .missingParams)
  else
    match getPendingValid w.pending env.now (state.getD "") with
    | none => (w, .sessionExpired)
    | some p =>
      match parseBlob p.redirect_url with
      | .error _ => (w, .serverError)
      | .ok blob =>
      match findCandidateSites env.sim env.store blob.metadata.accountName
          blob.metadata.loginEmail with
      | .error _ => (w, .serverError)
      | .ok cres =>
      match cres.sites with
      | [] =>
        ({ w with pending := deletePendingByState w.pending (state.getD "") },
          .redirectSetup ⟨blob.metadata.accountId, blob.metadata.accountName,
            audience_id, audience_name, blob.accessToken,
            blob.metadata.dataCenter, none⟩)
      | [c] =>
        let site := candSite c
        if !site.mac_addresses.isEmpty then
          let inputs := site.mac_addresses.map (fun mac =>
            { macAddress := lowerStr mac, accessToken := blob.accessToken,
              dataCenter := blob.metadata.dataCenter,
              accountId := blob.metadata.accountId,
              accountName := blob.metadata.accountName,
              audienceId := audience_id, audienceName := audience_name,
              sourceTag := jsOr source_tag (strOrNone site.restaurant_name)
              : ConnInput })
          match bulkUpsertConnections env.bulkFails w.conns env.now inputs with
          | (conns2, .ok _) =>
            ({ conns := conns2,
               pending := deletePendingByState w.pending (state.getD "") },
              .successPage)
          | (conns2, .error _) => ({ w with conns := conns2 }, .serverError)
        else
          ({ w with pending := deletePendingByState w.pending (state.getD "") },
            .redirectSetup ⟨blob.metadata.accountId, blob.metadata.accountName,
              audience_id, audience_name, blob.accessToken,
              blob.metadata.dataCenter, none⟩)
      | _ =>
        let row : PendingRow :=
          { state := env.fresh, mac_address := p.mac_address,
            redirect_url := some (.blob
              { accessToken := blob.accessToken, metadata := blob.metadata,
                redirect_url := blob.redirect_url,
                audienceId := audience_id, audienceName := audience_name,
                sourceTag := source_tag }),
            expires_at := env.now + ttl }
        match insertPending w.pending row with
        | .error _ => (w, .serverError)
        | .ok pending2 =>
          ({ w with pending := deletePendingByState pending2 (state.getD "") },
            .locationSelect cres.sites env.fresh)

/-- Embedding of `POST /oauth/select-location`: read the valid session,
parse its blob, fetch the chosen registry site by id, then bulk-commit its
device identifiers or hand off to manual setup; completed branches delete
the presented token. The site fetch is not individually guarded, so a
storage error surfaces through the handler's `catch` as a server error. -/
def selectLocation (env : Env) (w : World)
    (state site_id : Option String) : World × Response :=
  if !(jsTruthy state && jsTruthy site_id) then (w, .missingParams)
  else
    match getPendingValid w.pending env.now (state.getD "") with
    | none => (w, .sessionExpired)
    | some p =>
      match parseBlob p.redirect_url with
      | .error _ => (w, .serverError)
      | .ok blob =>
      match env.store with
      | .error _ => (w, .serverError)
      | .ok reg =>
        match reg.find? (fun s => toString s.id == site_id.getD "") with
        | none => (w, .locationNotFound)
        | some site =>
          if site.mac_addresses.isEmpty then
            ({ w with pending := deletePendingByState w.pending (state.getD "") },
              .redirectSetup ⟨blob.metadata.accountId, blob.metadata.accountName,
                blob.audienceId, blob.audienceName, blob.accessToken,
                blob.metadata.dataCenter, some site.restaurant_name⟩)
          else
            let inputs := site.mac_addresses.map (fun mac =>
              { macAddress := lowerStr mac, accessToken := blob.accessToken,
                dataCenter := blob.metadata.dataCenter,
                accountId := blob.metadata.accountId,
                accountName := blob.metadata.accountName,
                audienceId := blob.audienceId, audienceName := blob.audienceName,
                sourceTag := jsOr blob.sourceTag (strOrNone site.restaurant_name)
                : ConnInput })
            match bulkUpsertConnections env.bulkFails w.conns env.now inputs with
            | (conns2, .ok _) =>
              ({ conns := conns2,
                 pending := deletePendingByState w.pending (state.getD "") },
                .successPage)
            | (conns2, .error _) => ({ w with conns := conns2 }, .serverError)

/-- A workflow step presenting a token: the OAuth callback, the audience
selection, or the location selection, with the step's other parameters. -/
inductive Step where
  | callback (code : Option String)
  | selectAud (audience_id audience_name source_tag : Option String)
  | selectLoc (site_id : Option String)

/-- Run a workflow step with a given token. -/
def runStep (env : Env) (w : World) (s : Step) (token : Option String) :
    World × Response :=
  match s with
  | .callback code => oauthCallback env w code token none
  | .selectAud aid aname stag => selectAudience env w token aid aname stag
  | .selectLoc sid => selectLocation env w token sid

/-- Whether the step's non-token parameters pass the handler's
missing-parameter checks. -/
def stepParamsOk : Step → Bool
  | .callback code => jsTruthy code
  | .selectAud aid _ _ => jsTruthy aid
  | .selectLoc sid => jsTruthy sid

/-- The rejection each handler returns for a missing, consumed or expired
token. -/
def stepRejection : Step → Response
  | .callback _ => .authExpired
  | .selectAud _ _ _ => .sessionExpired
  | .selectLoc _ => .sessionExpired

/-- Responses of runs that successfully used (and therefore consumed) the
presented token: a commit success page, a manual-setup handoff, or the
persisting of a follow-up selection session. -/
def isConsumingSuccess : Response → Bool
  | .successPage => true
  | .redirectSetup _ => true
  | .locationSelect _ _ => true
  | .audienceSelect _ _ => true
  | _ => false

/-- A row of the `sync_log` table. -/
structure LogRow where
  mac_address : String
  email : Option String
  success : Bool
  error_message : Option String
deriving DecidableEq

/-- One call made to the Mailchimp `syncContact` client. -/
structure SyncCall where
  accessToken : String
  dataCenter : String
  audienceId : Option String
  email : String
  tags : List String
deriving DecidableEq

/-- The capabilities of the contact-webhook handler: similarity, clock, the
failure oracle of the auto-mapping upsert statement, and whether the
Mailchimp sync call succeeds. -/
structure WebhookEnv where
  sim : Sim
  now : Nat
  upsertFails : Bool
  syncOk : Bool

/-- The observable outcome of `POST /webhook/contact`. -/
inductive WebhookResp where
  | badRequest (msg : String)
  | notFound
  | syncFailed
  | ok (account : String) (audience : Option String) (tags : List String)
deriving DecidableEq

/-- The full outcome of a webhook request: final connections table, appended
sync-log rows, the Mailchimp calls made, and the HTTP response. -/
structure WebhookOut where
  conns : List Conn
  log : List LogRow
  calls : List SyncCall
  resp : WebhookResp
deriving DecidableEq

/-- The body of `POST /webhook/contact`. -/
structure ContactBody where
  mac_address : Option String
  email : Option String
  source : Option String
  location_name : Option String
deriving DecidableEq

/-- The email-format check `/^[^\s@]+@[^\s@]+\.[^\s@]+$/`: exactly one `@`,
a non-empty local part and a non-empty domain with an interior dot, no
whitespace anywhere. -/
def emailOk (s : String) : Bool :=
  let l := s.data
  let pre := l.takeWhile (fun c => !(c == '@'))
  let post := (l.dropWhile (fun c => !(c == '@'))).tail
  (l.count '@' == 1) &&
  !pre.isEmpty && pre.all (fun c => !c.isWhitespace) &&
  !post.isEmpty && post.all (fun c => !c.isWhitespace && !(c == '@')) &&
  (List.range post.length).any
    (fun j => decide (1 ≤ j) && decide (j + 1 < post.length) &&
      post.getD j '@' == '.')

/-- Embedding of `tryAutoMapping`: fuzzy-search existing connections by
account name at threshold `0.3`; on at least one hit, upsert a new
connection for the MAC copying the best hit's credentials and audience with
the supplied location name as `source_tag`; a thrown upsert or an empty
search yields null (errors are caught). -/
def tryAutoMapping (env : WebhookEnv) (conns : List Conn)
    (macAddress locationName : String) : List Conn × Option Conn :=
  match findConnectionsByAccountName env.sim conns locationName ratThreshold with
  | [] => (conns, none)
  | best :: _ =>
    if env.upsertFails then (conns, none)
    else
      let (conns2, row) := upsertConnection conns env.now
        { macAddress := macAddress, accessToken := best.1.access_token,
          dataCenter := best.1.data_center, accountId := best.1.account_id,
          accountName := best.1.account_name, audienceId := best.1.audience_id,
          audienceName := best.1.audience_name, sourceTag := some locationName }
      (conns2, some row)

/-- Embedding of `POST /webhook/contact`: validate, look up the connection
by MAC, fall back to `tryAutoMapping` when absent but a location name was
supplied, 404 (with a failure log row) when still absent, else call the
Mailchimp sync with the connection's credentials and tags and log the
outcome. -/
def webhookContact (env : WebhookEnv) (conns : List Conn) (log : List LogRow)
    (body : ContactBody) : WebhookOut :=
  if !(jsTruthy body.mac_address) then
    ⟨conns, log, [], .badRequest "missing mac_address"⟩
  else if !(jsTruthy body.email) then
    ⟨conns, log, [], .badRequest "missing email"⟩
  else if !(emailOk (body.email.getD "")) then
    ⟨conns, log, [], .badRequest "invalid email"⟩
  else
    let mac := body.mac_address.getD ""
    let em := body.email.getD ""
    let c0 := getConnectionByMac conns mac
    let step : List Conn × Option Conn :=
      match c0 with
      | none =>
        if jsTruthy body.location_name then
          tryAutoMapping env conns mac (body.location_name.getD "")
        else (conns, none)
      | some c => (conns, some c)
    match step with
    | (conns1, none) =>
      ⟨conns1,
        log ++ [⟨mac, some em, false, some "No Mailchimp connection found"⟩],
        [], .notFound⟩
    | (conns1, some conn) =>
      let tags :=
        (if jsTruthy conn.source_tag then [conn.source_tag.getD ""] else []) ++
        (if jsTruthy body.source then [body.source.getD ""] else [])
      let call : SyncCall :=
        ⟨conn.access_token, conn.data_center, conn.audience_id, em, tags⟩
      if env.syncOk then
        ⟨conns1, log ++ [⟨mac, some em, true, none⟩], [call],
          .ok conn.account_name conn.audience_name tags⟩
      else
        ⟨conns1, log ++ [⟨mac, some em, false, some "sync error"⟩], [call],
          .syncFailed⟩

/-- No row of the pending table carries this token with an unexpired
expiry: the token cannot be resolved by any workflow step at time `now`
(it is missing, already consumed, or expired). -/
def noValidToken (pending : List PendingRow) (now : Nat) (t : String) : Prop :=
  ∀ r ∈ pending, r.state = t → r.expires_at ≤ now

/-- A stored connection row carries exactly the fields of an upsert input
(the watched mutable columns; timestamps excluded). -/
def rowMatches (c : ConnInput) (r : Conn) : Prop :=
  r.mac_address = c.macAddress ∧ r.access_token = c.accessToken ∧
  r.data_center = c.dataCenter ∧ r.account_id = c.accountId ∧
  r.account_name = c.accountName ∧ r.audience_id = c.audienceId ∧
  r.audience_name = c.audienceName ∧ r.source_tag = c.sourceTag

/-- A similarity capability returning zero for every pair (test fixture). -/
def simZero : Sim := fun _ _ => 0

/-- Fixture account metadata. -/
def mdFix : Metadata := ⟨"acc", "Nm", none, "dc"⟩

/-- Fixture environment: the given registry store and audience list, a
Mailchimp client that always succeeds, no bulk failures, a clock at zero,
and the fresh random token `"fresh"`. -/
def envFix (store : Store) (auds : List Audience) : Env :=
  ⟨simZero, store, fun _ => .ok "tk", fun _ => .ok mdFix,
    fun _ _ => .ok auds, fun _ => false, 0, "fresh"⟩

/-- Fixture session blob carrying `mdFix` and no audience selection. -/
def blobFix : SessionBlob := ⟨"tk", mdFix, none, none, none, none⟩

/-- Fixture pending row holding token `"t"` and the given device
identifier, expiring at time 100. -/
def rowFix (mac : String) : PendingRow := ⟨"t", mac, some (.blob blobFix), 100⟩

/-! ## Lemmas about the pending-OAuth session store -/

theorem consume_of_no_token (db : List PendingRow) (now : Nat) (t : String)
    (h : ∀ r ∈ db, (r.state == t) = false) :
    consumePendingOAuth db now t = (db, none) := by
  have h1 : db.filter
      (fun r => !(r.state == t && decide (now < r.expires_at))) = db := by
    rw [List.filter_eq_self]
    intro a ha
    simp [h a ha]
  have h2 : db.filter
      (fun r => (r.state == t && decide (now < r.expires_at))) = [] := by
    rw [List.filter_eq_nil_iff]
    intro a ha
    simp [h a ha]
  simp only [consumePendingOAuth, h1, h2, List.head?_nil]

theorem consume_result_iff (db : List PendingRow) (now : Nat) (t : String)
    (hnd : (db.map (fun r => r.state)).Nodup) (s : PendingRow) :
    (consumePendingOAuth db now t).2 = some s ↔
      (s ∈ db ∧ s.state = t ∧ now < s.expires_at) := by
  induction db with
  | nil => simp [consumePendingOAuth]
  | cons h tl ih =>
    simp only [List.map_cons, List.nodup_cons] at hnd
    by_cases ph : (h.state == t && decide (now < h.expires_at)) = true
    · have hst : h.state = t := by
        have := (Bool.and_eq_true _ _).mp ph
        exact eq_of_beq this.1
      have hlt : now < h.expires_at := by
        have := (Bool.and_eq_true _ _).mp ph
        exact of_decide_eq_true this.2
      simp only [consumePendingOAuth, List.filter_cons, ph, if_pos rfl,
        List.head?_cons]
      constructor
      · rintro hs
        injection hs with hs
        exact ⟨by simp [← hs], by rw [← hs]; exact ⟨hst, hlt⟩⟩
      · rintro ⟨hmem, hs, _⟩
        rcases List.mem_cons.mp hmem with rfl | hmemtl
        · rfl
        · exfalso
          apply hnd.1
          rw [hst, ← hs]
          exact List.mem_map.mpr ⟨s, hmemtl, rfl⟩
    · have ph' : (h.state == t && decide (now < h.expires_at)) = false :=
        Bool.not_eq_true _ ▸ eq_false_of_ne_true ph
      have := ih hnd.2
      simp only [consumePendingOAuth, List.filter_cons, ph'] at this ⊢
      rw [if_neg (by simp [ph'])]
      rw [this]
      constructor
      · rintro ⟨hmem, rest⟩
        exact ⟨List.mem_cons_of_mem _ hmem, rest⟩
      · rintro ⟨hmem, hs, hlt⟩
        rcases List.mem_cons.mp hmem with rfl | hmemtl
        · exfalso
          apply ph
          simp [hs, hlt]
        · exact ⟨hmemtl, hs, hlt⟩

theorem consume_delete (db : List PendingRow) (now : Nat) (t : String)
    (hnd : (db.map (fun r => r.state)).Nodup) (s : PendingRow)
    (hs : (consumePendingOAuth db now t).2 = some s) :
    ∃ l1 l2, db = l1 ++ s :: l2 ∧
      (consumePendingOAuth db now t).1 = l1 ++ l2 ∧
      ∀ r ∈ l1 ++ l2, (r.state == t) = false := by
  induction db with
  | nil => simp [consumePendingOAuth] at hs
  | cons h tl ih =>
    have hnd' := hnd
    rw [List.map_cons, List.nodup_cons] at hnd'
    have hnd1 : h.state ∉ List.map (fun r => r.state) tl := hnd'.1
    have hnd2 : (tl.map (fun r => r.state)).Nodup := hnd'.2
    have hprop := (consume_result_iff (h :: tl) now t hnd s).mp hs
    by_cases ph : (h.state == t && decide (now < h.expires_at)) = true
    · have hsh : s = h := by
        have hh : (consumePendingOAuth (h :: tl) now t).2 = some h := by
          simp only [consumePendingOAuth, List.filter_cons, ph]
          simp
        rw [hs] at hh
        exact Option.some.inj hh
      have hteq : ∀ r ∈ tl, (r.state == t) = false := by
        intro r hr
        by_contra hc
        have hrt : r.state = t :=
          eq_of_beq (Bool.not_eq_false _ ▸ hc)
        apply hnd1
        have hht : h.state = t :=
          eq_of_beq ((Bool.and_eq_true _ _).mp ph).1
        rw [hht, ← hrt]
        exact List.mem_map.mpr ⟨r, hr, rfl⟩
      refine ⟨[], tl, by simp [hsh], ?_, ?_⟩
      · have hfl : tl.filter
            (fun r => !(r.state == t && decide (now < r.expires_at))) = tl := by
          rw [List.filter_eq_self]
          intro a ha
          simp [hteq a ha]
        simp only [consumePendingOAuth, List.filter_cons, ph]
        simpa using hfl
      · simpa using hteq
    · have ph' : (h.state == t && decide (now < h.expires_at)) = false :=
        eq_false_of_ne_true ph
      have hs' : (consumePendingOAuth tl now t).2 = some s := by
        simp only [consumePendingOAuth, List.filter_cons, ph'] at hs ⊢
        simpa using hs
      obtain ⟨l1, l2, e1, e2, e3⟩ := ih hnd2 hs'
      have hstl : s ∈ tl := by
        rw [e1]
        exact List.mem_append.mpr (Or.inr (List.mem_cons_self _ _))
      have hht : (h.state == t) = false := by
        by_contra hc
        apply hnd1
        have : h.state = t := eq_of_beq (Bool.not_eq_false _ ▸ hc)
        rw [this, ← hprop.2.1]
        exact List.mem_map.mpr ⟨s, hstl, rfl⟩
      refine ⟨h :: l1, l2, by simp [e1], ?_, ?_⟩
      · simp only [consumePendingOAuth, List.filter_cons, ph']
        simp only [consumePendingOAuth] at e2
        simpa using e2
      · intro r hr
        rcases List.mem_cons.mp hr with rfl | hr2
        · exact hht
        · exact e3 r hr2

/-- C3: `consumePendingOAuth` returns the stored session and deletes it if
and only if a session with the presented token exists and its expiry is
strictly in the future (the fetch and delete are one atomic SQL statement by
construction of the embedding); a missing, already-consumed or expired token
all yield the same null result; and a second consume of the same token
returns null and leaves the store unchanged. -/
theorem c3_consume_once (db : List PendingRow) (now : Nat) (t : String)
    (hnd : (db.map (fun r => r.state)).Nodup) :
    (∀ s, (consumePendingOAuth db now t).2 = some s ↔
        (s ∈ db ∧ s.state = t ∧ now < s.expires_at))
    ∧ (∀ s, (consumePendingOAuth db now t).2 = some s →
        ∃ l1 l2, db = l1 ++ s :: l2 ∧
          (consumePendingOAuth db now t).1 = l1 ++ l2)
    ∧ ((consumePendingOAuth db now t).2 = none →
        (consumePendingOAuth db now t).1 = db)
    ∧ (∀ s now2, (consumePendingOAuth db now t).2 = some s →
        consumePendingOAuth (consumePendingOAuth db now t).1 now2 t =
          ((consumePendingOAuth db now t).1, none)) := by
  refine ⟨consume_result_iff db now t hnd, ?_, ?_, ?_⟩
  · intro s hs
    obtain ⟨l1, l2, e1, e2, _⟩ := consume_delete db now t hnd s hs
    exact ⟨l1, l2, e1, e2⟩
  · intro hnone
    have hfl : db.filter
        (fun r => (r.state == t && decide (now < r.expires_at))) = [] := by
      have := hnone
      simp only [consumePendingOAuth] at this
      exact List.head?_eq_none_iff.mp this
    have hall := List.filter_eq_nil_iff.mp hfl
    have h1 : db.filter
        (fun r => !(r.state == t && decide (now < r.expires_at))) = db := by
      rw [List.filter_eq_self]
      intro a ha
      exact (Bool.not_eq_true' _).mpr (eq_false_of_ne_true (hall a ha))
    simp only [consumePendingOAuth]
    exact h1
  · intro s now2 hs
    obtain ⟨l1, l2, _, e2, e3⟩ := consume_delete db now t hnd s hs
    rw [e2]
    exact consume_of_no_token _ now2 t e3

/-- Witness for C3 at a concrete store: a valid token is consumed and
returned, and the second consume of the same token yields null with the
store unchanged. -/
theorem c3_consume_once_witness :
    (consumePendingOAuth [⟨"tok", "m", none, 100⟩] 0 "tok").2
        = some ⟨"tok", "m", none, 100⟩
      ∧ consumePendingOAuth
          (consumePendingOAuth [⟨"tok", "m", none, 100⟩] 0 "tok").1 7 "tok"
        = ((consumePendingOAuth [⟨"tok", "m", none, 100⟩] 0 "tok").1, none) := by
  have h := c3_consume_once [⟨"tok", "m", none, 100⟩] 0 "tok" (by decide)
  have hsome : (consumePendingOAuth [(⟨"tok", "m", none, 100⟩ : PendingRow)]
      0 "tok").2 = some ⟨"tok", "m", none, 100⟩ :=
    (h.1 _).mpr ⟨by simp, rfl, by decide⟩
  exact ⟨hsome, h.2.2.2 _ 7 hsome⟩

/-! ## Lemmas about the mapping repository -/

theorem find?_of_filter_eq_singleton {α} (p : α → Bool) (l : List α) (a : α)
    (h : l.filter p = [a]) : l.find? p = some a := by
  induction l with
  | nil => simp at h
  | cons x xs ih =>
    by_cases px : p x = true
    · rw [List.filter_cons_of_pos px] at h
      have hx : x = a := by
        injection h with h1 _
      rw [List.find?_cons_of_pos _ px, hx]
    · have px' : p x = false := eq_false_of_ne_true px
      rw [List.filter_cons_of_neg (by simp [px'])] at h
      rw [List.find?_cons_of_neg _ (by simp [px'])]
      exact ih h

theorem filter_overwrite (l : List Conn) (key : String) (r : Conn)
    (hr : r.mac_address = key)
    (hnd : (l.map (fun x => x.mac_address)).Nodup)
    (old : Conn) (hold : old ∈ l) (holdk : old.mac_address = key) :
    (l.map (fun x => if x.mac_address == key then r else x)).filter
      (fun x => x.mac_address == key) = [r] := by
  induction l with
  | nil => simp at hold
  | cons h tl ih =>
    rw [List.map_cons, List.nodup_cons] at hnd
    by_cases hh : h.mac_address = key
    · have hnok : ∀ x ∈ tl, (x.mac_address == key) = false := by
        intro x hx
        by_contra hc
        apply hnd.1
        have : x.mac_address = key := eq_of_beq (Bool.not_eq_false _ ▸ hc)
        rw [hh, ← this]
        exact List.mem_map.mpr ⟨x, hx, rfl⟩
      have hmap : tl.map (fun x => if x.mac_address == key then r else x) = tl := by
        have h2 : tl.map (fun x => if x.mac_address == key then r else x) =
            tl.map id :=
          List.map_congr_left (fun x hx => by simp [hnok x hx])
        simpa using h2
      have hnil : tl.filter (fun x => x.mac_address == key) = [] := by
        rw [List.filter_eq_nil_iff]
        intro a ha
        simp [hnok a ha]
      rw [List.map_cons, if_pos (beq_iff_eq.mpr hh), hmap]
      simp [List.filter_cons, hr, hnil]
    · have hfh : (h.mac_address == key) = false := beq_eq_false_iff_ne.mpr hh
      have holdtl : old ∈ tl := by
        rcases List.mem_cons.mp hold with rfl | htl
        · exact absurd holdk hh
        · exact htl
      rw [List.map_cons, if_neg (by simp [hfh]),
        List.filter_cons_of_neg (by simp [hfh])]
      exact ih hnd.2 holdtl

theorem upsert_of_find_some (db : List Conn) (now : Nat) (c : ConnInput)
    (old : Conn)
    (h : db.find? (fun r => r.mac_address == c.macAddress) = some old) :
    (upsertConnection db now c).2 = connRow c old.created_at now := by
  simp [upsertConnection, h]

theorem upsert_filter_key (db : List Conn) (now : Nat) (c : ConnInput)
    (hnd : (db.map (fun r => r.mac_address)).Nodup) :
    (upsertConnection db now c).1.filter
        (fun r => r.mac_address == c.macAddress) =
      [(upsertConnection db now c).2] := by
  cases hf : db.find? (fun r => r.mac_address == c.macAddress) with
  | none =>
    have hnone := List.find?_eq_none.mp hf
    have h0 : db.filter (fun r => r.mac_address == c.macAddress) = [] := by
      rw [List.filter_eq_nil_iff]
      exact hnone
    simp only [upsertConnection, hf, List.filter_append, h0,
      List.nil_append]
    simp [connRow]
  | some old =>
    have hmem := List.mem_of_find?_eq_some hf
    have hpo : (old.mac_address == c.macAddress) = true := by
      simpa using List.find?_some hf
    simp only [upsertConnection, hf]
    exact filter_overwrite db c.macAddress _ rfl hnd old hmem (eq_of_beq hpo)

theorem upsert_nodup (db : List Conn) (now : Nat) (c : ConnInput)
    (hnd : (db.map (fun r => r.mac_address)).Nodup) :
    ((upsertConnection db now c).1.map (fun r => r.mac_address)).Nodup := by
  cases hf : db.find? (fun r => r.mac_address == c.macAddress) with
  | none =>
    have hnone := List.find?_eq_none.mp hf
    simp only [upsertConnection, hf, List.map_append]
    rw [List.nodup_append]
    refine ⟨hnd, by simp, ?_⟩
    intro a ha hb
    simp only [connRow, List.map_cons, List.map_nil, List.mem_singleton] at hb
    obtain ⟨x, hx, hxa⟩ := List.mem_map.mp ha
    apply hnone x hx
    rw [show x.mac_address = c.macAddress from by rw [hxa, hb]]
    exact beq_self_eq_true _
  | some old =>
    simp only [upsertConnection, hf]
    have hmaps : (db.map (fun x =>
        if x.mac_address == c.macAddress then connRow c old.created_at now
        else x)).map (fun r => r.mac_address) =
        db.map (fun r => r.mac_address) := by
      rw [List.map_map]
      apply List.map_congr_left
      intro x _
      by_cases hx : x.mac_address = c.macAddress
      · simp [connRow, hx]
      · simp [hx]
    rw [hmaps]
    exact hnd

/-- C6: keyed on the device identifier, the upsert is idempotent up to
`updated_at`: run twice with identical input it leaves exactly one row for
that key, the second returned row equals the first with only `updated_at`
refreshed (so every other field, `created_at` included, is unchanged), and
`updated_at` strictly increases with the clock. -/
theorem c6_upsert_idempotent (db : List Conn) (now1 now2 : Nat)
    (c : ConnInput) (hnd : (db.map (fun r => r.mac_address)).Nodup)
    (hlt : now1 < now2) :
    (upsertConnection (upsertConnection db now1 c).1 now2 c).1.filter
        (fun r => r.mac_address == c.macAddress) =
      [(upsertConnection (upsertConnection db now1 c).1 now2 c).2]
    ∧ (upsertConnection (upsertConnection db now1 c).1 now2 c).2 =
      { (upsertConnection db now1 c).2 with updated_at := now2 }
    ∧ (upsertConnection db now1 c).2.updated_at <
      (upsertConnection (upsertConnection db now1 c).1 now2 c).2.updated_at := by
  have hnd1 := upsert_nodup db now1 c hnd
  have hfilter1 := upsert_filter_key db now1 c hnd
  have hfind2 : (upsertConnection db now1 c).1.find?
      (fun r => r.mac_address == c.macAddress) =
      some (upsertConnection db now1 c).2 :=
    find?_of_filter_eq_singleton _ _ _ hfilter1
  have hsnd1 : (upsertConnection db now1 c).2 =
      connRow c (upsertConnection db now1 c).2.created_at now1 := by
    cases hf : db.find? (fun r => r.mac_address == c.macAddress) with
    | none =>
      simp only [upsertConnection, hf]
      rfl
    | some old =>
      simp only [upsertConnection, hf]
      rfl
  have hsnd2 : (upsertConnection (upsertConnection db now1 c).1 now2 c).2 =
      connRow c (upsertConnection db now1 c).2.created_at now2 :=
    upsert_of_find_some _ now2 c _ hfind2
  refine ⟨upsert_filter_key _ now2 c hnd1, ?_, ?_⟩
  · rw [hsnd2]
    conv_rhs => rw [hsnd1]
    rfl
  · rw [hsnd2]
    have h1 : (upsertConnection db now1 c).2.updated_at = now1 := by
      conv_lhs => rw [hsnd1]
      rfl
    rw [h1]
    exact hlt

/-- Witness for C6 at a concrete input: starting from the empty table, two
upserts of the same record leave one row for the key, the second result
differs from the first only in `updated_at`, which strictly increased. -/
theorem c6_upsert_idempotent_witness :
    (upsertConnection
        (upsertConnection [] 0 ⟨"aa", "tk", "dc", "id", "nm", none, none, none⟩).1
        1 ⟨"aa", "tk", "dc", "id", "nm", none, none, none⟩).1.filter
        (fun r => r.mac_address == "aa") =
      [(upsertConnection
        (upsertConnection [] 0 ⟨"aa", "tk", "dc", "id", "nm", none, none, none⟩).1
        1 ⟨"aa", "tk", "dc", "id", "nm", none, none, none⟩).2]
    ∧ (upsertConnection
        (upsertConnection [] 0 ⟨"aa", "tk", "dc", "id", "nm", none, none, none⟩).1
        1 ⟨"aa", "tk", "dc", "id", "nm", none, none, none⟩).2 =
      { (upsertConnection [] 0
          ⟨"aa", "tk", "dc", "id", "nm", none, none, none⟩).2 with
        updated_at := 1 }
    ∧ (upsertConnection [] 0
        ⟨"aa", "tk", "dc", "id", "nm", none, none, none⟩).2.updated_at <
      (upsertConnection
        (upsertConnection [] 0 ⟨"aa", "tk", "dc", "id", "nm", none, none, none⟩).1
        1 ⟨"aa", "tk", "dc", "id", "nm", none, none, none⟩).2.updated_at :=
  c6_upsert_idempotent [] 0 1 ⟨"aa", "tk", "dc", "id", "nm", none, none, none⟩
    (by decide) (by decide)

theorem bulkGo_error (fails : ConnInput → Bool) (now : Nat) :
    ∀ (db results : List Conn) (cs : List ConnInput),
      (∃ c ∈ cs, fails c = true) →
      bulkGo fails now db results cs = .error .storage := by
  intro db results cs
  induction cs generalizing db results with
  | nil =>
    rintro ⟨c, hc, _⟩
    simp at hc
  | cons c rest ih =>
    rintro ⟨d, hd, hfail⟩
    by_cases hc : fails c = true
    · simp [bulkGo, hc]
    · rcases List.mem_cons.mp hd with rfl | hdr
      · exact absurd hfail hc
      · have hrec := ih (upsertConnection db now c).1
          ((upsertConnection db now c).2 :: results) ⟨d, hdr, hfail⟩
        simp [bulkGo, eq_false_of_ne_true hc, hrec]

theorem bulkGo_ok (fails : ConnInput → Bool) (now : Nat) :
    ∀ (db results : List Conn) (cs : List ConnInput),
      (∀ c ∈ cs, fails c = false) →
      ∃ rs, bulkGo fails now db results cs =
        .ok (cs.foldl (fun d c => (upsertConnection d now c).1) db, rs) := by
  intro db results cs
  induction cs generalizing db results with
  | nil =>
    intro _
    exact ⟨results.reverse, by simp [bulkGo]⟩
  | cons c rest ih =>
    intro hall
    obtain ⟨rs, hrs⟩ := ih (upsertConnection db now c).1
      ((upsertConnection db now c).2 :: results)
      (fun d hd => hall d (List.mem_cons_of_mem _ hd))
    refine ⟨rs, ?_⟩
    simp [bulkGo, hall c (List.mem_cons_self _ _), hrs]

/-- C5: the bulk upsert applies the single-row upsert to each element
inside one transaction with all-or-nothing semantics: if any element's
statement fails, the table reverts to exactly its pre-call state and the
error is rethrown; if none fails, the final table is the sequential fold of
the single-row upserts. -/
theorem c5_bulk_all_or_nothing (fails : ConnInput → Bool) (db : List Conn)
    (now : Nat) (cs : List ConnInput) :
    ((∃ c ∈ cs, fails c = true) →
      (bulkUpsertConnections fails db now cs).1 = db ∧
      (bulkUpsertConnections fails db now cs).2 = .error .storage)
    ∧ ((∀ c ∈ cs, fails c = false) →
      (bulkUpsertConnections fails db now cs).1 =
        cs.foldl (fun d c => (upsertConnection d now c).1) db ∧
      ∃ rs, (bulkUpsertConnections fails db now cs).2 = .ok rs) := by
  constructor
  · intro hex
    have h := bulkGo_error fails now db [] cs hex
    constructor
    · simp [bulkUpsertConnections, h]
    · simp [bulkUpsertConnections, h]
  · intro hall
    obtain ⟨rs, hrs⟩ := bulkGo_ok fails now db [] cs hall
    constructor
    · simp [bulkUpsertConnections, hrs]
    · exact ⟨rs, by simp [bulkUpsertConnections, hrs]⟩

/-- Witness for C5: one malformed row among five leaves the table exactly
empty (no new rows) and propagates the error. -/
theorem c5_bulk_all_or_nothing_witness :
    (bulkUpsertConnections (fun c => c.macAddress == "bad") [] 0
      [⟨"m1", "t", "d", "i", "n", none, none, none⟩,
       ⟨"m2", "t", "d", "i", "n", none, none, none⟩,
       ⟨"bad", "t", "d", "i", "n", none, none, none⟩,
       ⟨"m4", "t", "d", "i", "n", none, none, none⟩,
       ⟨"m5", "t", "d", "i", "n", none, none, none⟩]).1 = []
    ∧ (bulkUpsertConnections (fun c => c.macAddress == "bad") [] 0
      [⟨"m1", "t", "d", "i", "n", none, none, none⟩,
       ⟨"m2", "t", "d", "i", "n", none, none, none⟩,
       ⟨"bad", "t", "d", "i", "n", none, none, none⟩,
       ⟨"m4", "t", "d", "i", "n", none, none, none⟩,
       ⟨"m5", "t", "d", "i", "n", none, none, none⟩]).2 = .error .storage :=
  (c5_bulk_all_or_nothing (fun c => c.macAddress == "bad") [] 0
      [⟨"m1", "t", "d", "i", "n", none, none, none⟩,
       ⟨"m2", "t", "d", "i", "n", none, none, none⟩,
       ⟨"bad", "t", "d", "i", "n", none, none, none⟩,
       ⟨"m4", "t", "d", "i", "n", none, none, none⟩,
       ⟨"m5", "t", "d", "i", "n", none, none, none⟩]).1
    ⟨⟨"bad", "t", "d", "i", "n", none, none, none⟩, by simp, by decide⟩

/-! ## The matching engine: email short-circuit and error propagation -/

/-- C1: when a login email is present and the registry's email lookup (exact
match on the lowercased input) is non-empty, `findCandidateSites` returns
exactly those email-matched sites with method `email`; the result does not
depend on `accountName` at all (the name strategies are never consulted),
which the universal quantification over `accountName` expresses. -/
theorem c1_email_short_circuit (sim : Sim) (store : Store)
    (accountName : String) (e : String) (he : e ≠ "")
    (hne : findAllSitesByEmail store e ≠ []) :
    findCandidateSites sim store accountName (some e) =
      .ok ⟨(findAllSitesByEmail store e).map Sum.inl, .email⟩ := by
  unfold findCandidateSites findCandidateSitesBody
  have ht : jsTruthy (some e) = true := by simp [jsTruthy, he]
  simp [ht, List.isEmpty_iff, hne]

/-- Witness for C1: a registry site owned by `a@b.c`, queried with the
differently-capitalised login email `A@B.c` and an unrelated account name,
is returned by the email strategy. -/
theorem c1_email_short_circuit_witness :
    findCandidateSites (fun _ _ => 0) (.ok [⟨1, "Nm", ["m1"], ["a@b.c"]⟩])
        "Whatever" (some "A@B.c") =
      .ok ⟨(findAllSitesByEmail (.ok [⟨1, "Nm", ["m1"], ["a@b.c"]⟩])
        "A@B.c").map Sum.inl, .email⟩ :=
  c1_email_short_circuit (fun _ _ => 0) (.ok [⟨1, "Nm", ["m1"], ["a@b.c"]⟩])
    "Whatever" "A@B.c" (by decide) (by decide)

/-- Counterexample to C9 as stated: with the storage unreachable (every
query raises), `findCandidateSites` does not propagate the error — it
returns the ordinary no-match value, so an infrastructure failure is not an
error to the caller. -/
theorem c9_counterexample :
    findCandidateSites (fun _ _ => 0) (.error .storage) "Acme" none =
        .ok ⟨[], .nomatch⟩
      ∧ ∀ e : DbError,
        findCandidateSites (fun _ _ => 0) (.error .storage) "Acme" none ≠
          .error e := by
  have h1 : findCandidateSites (fun _ _ => 0) (.error .storage) "Acme" none =
      .ok ⟨[], .nomatch⟩ := rfl
  refine ⟨h1, ?_⟩
  intro e h
  rw [h1] at h
  exact Except.noConfusion h

/-- C9 amended: `findCandidateSites` never throws at all. A no-match is the
value `⟨[], nomatch⟩`, and infrastructure failures are also folded into that
same value (each lookup catches its own storage error and returns an empty
result) rather than being propagated to the caller. -/
theorem c9_errors_folded (sim : Sim) (store : Store) (nm : String)
    (le : Option String) :
    (∃ r, findCandidateSites sim store nm le = .ok r)
    ∧ (findAllSitesByRestaurantName sim store nm ratThreshold = [] →
        (jsTruthy le = false ∨ findAllSitesByEmail store (le.getD "") = []) →
        findCandidateSites sim store nm le = .ok ⟨[], .nomatch⟩)
    ∧ (∀ e, store = .error e →
        findCandidateSites sim store nm le = .ok ⟨[], .nomatch⟩) := by
  refine ⟨⟨_, rfl⟩, ?_, ?_⟩
  · intro hname hemail
    unfold findCandidateSites findCandidateSitesBody
    rcases hemail with hf | hemp
    · simp [hf, hname]
    · by_cases ht : jsTruthy le = true
      · simp [ht, hemp, hname]
      · simp [eq_false_of_ne_true ht, hname]
  · rintro e rfl
    unfold findCandidateSites findCandidateSitesBody
      findAllSitesByRestaurantName findAllSitesByEmail
    by_cases ht : jsTruthy le = true
    · simp [ht]
    · simp [eq_false_of_ne_true ht]

/-- Witness for C9 (amended) at a concrete input: an unreachable store
yields the plain no-match value. -/
theorem c9_errors_folded_witness :
    findCandidateSites (fun _ _ => 0) (.error .storage) "Acme"
        (some "a@b.c") = .ok ⟨[], .nomatch⟩ :=
  (c9_errors_folded (fun _ _ => 0) (.error .storage) "Acme"
    (some "a@b.c")).2.2 .storage rfl

/-! ## Lemmas about the name-strategy merge -/

theorem mem_insertDescBy {f : α → ℚ} {r x : α} {l : List α} :
    x ∈ insertDescBy f r l ↔ x = r ∨ x ∈ l := by
  induction l with
  | nil => simp [insertDescBy]
  | cons h t ih =>
    by_cases hc : f h < f r
    · simp [insertDescBy, hc]
    · simp [insertDescBy, hc, ih]
      tauto

theorem insertDescBy_perm (f : α → ℚ) (r : α) (l : List α) :
    List.Perm (insertDescBy f r l) (r :: l) := by
  induction l with
  | nil => exact List.Perm.refl _
  | cons h t ih =>
    by_cases hc : f h < f r
    · rw [insertDescBy, if_pos hc]
    · rw [insertDescBy, if_neg hc]
      exact (ih.cons h).trans (List.Perm.swap _ _ _)

theorem sortDescBy_perm (f : α → ℚ) (l : List α) :
    List.Perm (sortDescBy f l) l := by
  induction l with
  | nil => exact List.Perm.refl _
  | cons h t ih =>
    exact (insertDescBy_perm f h _).trans (ih.cons h)

theorem insertDescBy_sorted {f : α → ℚ} (r : α) {l : List α}
    (h : l.Pairwise (fun a b => f b ≤ f a)) :
    (insertDescBy f r l).Pairwise (fun a b => f b ≤ f a) := by
  induction l with
  | nil => simp [insertDescBy]
  | cons x xs ih =>
    rw [List.pairwise_cons] at h
    by_cases hc : f x < f r
    · rw [insertDescBy, if_pos hc, List.pairwise_cons]
      refine ⟨?_, List.pairwise_cons.mpr h⟩
      intro y hy
      rcases List.mem_cons.mp hy with rfl | hys
      · exact le_of_lt hc
      · exact le_trans (h.1 y hys) (le_of_lt hc)
    · rw [insertDescBy, if_neg hc, List.pairwise_cons]
      refine ⟨?_, ih h.2⟩
      intro y hy
      rcases mem_insertDescBy.mp hy with rfl | hys
      · exact le_of_not_lt hc
      · exact h.1 y hys

theorem sortDescBy_sorted (f : α → ℚ) (l : List α) :
    (sortDescBy f l).Pairwise (fun a b => f b ≤ f a) := by
  induction l with
  | nil => simp [sortDescBy]
  | cons h t ih => exact insertDescBy_sorted h ih

theorem mem_mset {m : List MatchRow} {r x : MatchRow} (h : x ∈ mset m r) :
    x ∈ m ∨ x = r := by
  unfold mset at h
  by_cases hc : m.any (fun y => y.site.id == r.site.id) = true
  · rw [if_pos hc] at h
    obtain ⟨y, hy, hyx⟩ := List.mem_map.mp h
    by_cases hyy : (y.site.id == r.site.id) = true
    · right
      rw [← hyx]
      simp [hyy]
    · left
      rw [← hyx, if_neg (by simp [eq_false_of_ne_true hyy])]
      exact hy
  · rw [if_neg hc] at h
    rcases List.mem_append.mp h with h1 | h1
    · exact Or.inl h1
    · exact Or.inr (by simpa using h1)

theorem mem_msetIfAbsent {m : List MatchRow} {r x : MatchRow}
    (h : x ∈ msetIfAbsent m r) : x ∈ m ∨ x = r := by
  unfold msetIfAbsent at h
  by_cases hc : m.any (fun y => y.site.id == r.site.id) = true
  · rw [if_pos hc] at h
    exact Or.inl h
  · rw [if_neg hc] at h
    rcases List.mem_append.mp h with h1 | h1
    · exact Or.inl h1
    · exact Or.inr (by simpa using h1)

theorem msetIfAbsent_preserve {m : List MatchRow} {r x : MatchRow}
    (h : x ∈ m) : x ∈ msetIfAbsent m r := by
  unfold msetIfAbsent
  by_cases hc : m.any (fun y => y.site.id == r.site.id) = true
  · rw [if_pos hc]; exact h
  · rw [if_neg hc]; exact List.mem_append_left _ h

theorem mem_foldl_mset {x : MatchRow} :
    ∀ {rs : List MatchRow} {m : List MatchRow},
      x ∈ rs.foldl mset m → x ∈ m ∨ x ∈ rs := by
  intro rs
  induction rs with
  | nil =>
    intro m h
    exact Or.inl (by simpa using h)
  | cons a t ih =>
    intro m h
    rcases ih (m := mset m a) h with h1 | h1
    · rcases mem_mset h1 with h2 | h2
      · exact Or.inl h2
      · exact Or.inr (by simp [h2])
    · exact Or.inr (List.mem_cons_of_mem _ h1)

theorem mem_foldl_msetIfAbsent {x : MatchRow} :
    ∀ {rs : List MatchRow} {m : List MatchRow},
      x ∈ rs.foldl msetIfAbsent m → x ∈ m ∨ x ∈ rs := by
  intro rs
  induction rs with
  | nil =>
    intro m h
    exact Or.inl (by simpa using h)
  | cons a t ih =>
    intro m h
    rcases ih (m := msetIfAbsent m a) h with h1 | h1
    · rcases mem_msetIfAbsent h1 with h2 | h2
      · exact Or.inl h2
      · exact Or.inr (by simp [h2])
    · exact Or.inr (List.mem_cons_of_mem _ h1)

theorem foldl_msetIfAbsent_preserve {x : MatchRow} :
    ∀ (rs : List MatchRow) {m : List MatchRow},
      x ∈ m → x ∈ rs.foldl msetIfAbsent m := by
  intro rs
  induction rs with
  | nil => intro m h; simpa using h
  | cons a t ih =>
    intro m h
    exact ih (msetIfAbsent_preserve h)

theorem mset_keys_eq_of_any (m : List MatchRow) (r : MatchRow) :
    ((m.map (fun x => if x.site.id == r.site.id then r else x)).map
        (fun x => x.site.id)) = m.map (fun x => x.site.id) := by
  rw [List.map_map]
  apply List.map_congr_left
  intro x _
  by_cases hx : (x.site.id == r.site.id) = true
  · have hxe : x.site.id = r.site.id := by simpa using hx
    simp [Function.comp, hx, hxe]
  · simp [Function.comp, eq_false_of_ne_true hx]

theorem mset_keys_nodup {m : List MatchRow} (r : MatchRow)
    (h : (m.map (fun x => x.site.id)).Nodup) :
    ((mset m r).map (fun x => x.site.id)).Nodup := by
  unfold mset
  by_cases hc : m.any (fun y => y.site.id == r.site.id) = true
  · rw [if_pos hc, mset_keys_eq_of_any m r]
    exact h
  · rw [if_neg hc, List.map_append, List.nodup_append]
    refine ⟨h, by simp, ?_⟩
    intro a ha hb
    simp only [List.map_cons, List.map_nil, List.mem_singleton] at hb
    have hall := List.any_eq_false.mp (eq_false_of_ne_true hc)
    obtain ⟨y, hy, hya⟩ := List.mem_map.mp ha
    apply hall y hy
    rw [show y.site.id = r.site.id from by rw [hya, hb]]
    exact beq_self_eq_true _

theorem msetIfAbsent_keys_nodup {m : List MatchRow} (r : MatchRow)
    (h : (m.map (fun x => x.site.id)).Nodup) :
    ((msetIfAbsent m r).map (fun x => x.site.id)).Nodup := by
  unfold msetIfAbsent
  by_cases hc : m.any (fun y => y.site.id == r.site.id) = true
  · rw [if_pos hc]; exact h
  · rw [if_neg hc, List.map_append, List.nodup_append]
    refine ⟨h, by simp, ?_⟩
    intro a ha hb
    simp only [List.map_cons, List.map_nil, List.mem_singleton] at hb
    have hall := List.any_eq_false.mp (eq_false_of_ne_true hc)
    obtain ⟨y, hy, hya⟩ := List.mem_map.mp ha
    apply hall y hy
    rw [show y.site.id = r.site.id from by rw [hya, hb]]
    exact beq_self_eq_true _

theorem foldl_mset_keys_nodup :
    ∀ (rs : List MatchRow) {m : List MatchRow},
      (m.map (fun x => x.site.id)).Nodup →
      ((rs.foldl mset m).map (fun x => x.site.id)).Nodup := by
  intro rs
  induction rs with
  | nil => intro m h; simpa using h
  | cons a t ih => intro m h; exact ih (mset_keys_nodup a h)

theorem foldl_msetIfAbsent_keys_nodup :
    ∀ (rs : List MatchRow) {m : List MatchRow},
      (m.map (fun x => x.site.id)).Nodup →
      ((rs.foldl msetIfAbsent m).map (fun x => x.site.id)).Nodup := by
  intro rs
  induction rs with
  | nil => intro m h; simpa using h
  | cons a t ih => intro m h; exact ih (msetIfAbsent_keys_nodup a h)

theorem mset_self_mem (m : List MatchRow) (r : MatchRow) : r ∈ mset m r := by
  unfold mset
  by_cases hc : m.any (fun y => y.site.id == r.site.id) = true
  · rw [if_pos hc]
    obtain ⟨y, hy, hyp⟩ := List.any_eq_true.mp hc
    exact List.mem_map.mpr ⟨y, hy, by simp [hyp]⟩
  · rw [if_neg hc]
    exact List.mem_append_right _ (by simp)

theorem mset_key_stable (m : List MatchRow) (r : MatchRow) (k : Nat)
    (h : ∃ y ∈ m, y.site.id = k) : ∃ y ∈ mset m r, y.site.id = k := by
  obtain ⟨y, hy, hyk⟩ := h
  unfold mset
  by_cases hc : m.any (fun z => z.site.id == r.site.id) = true
  · rw [if_pos hc]
    refine ⟨if y.site.id == r.site.id then r else y,
      List.mem_map.mpr ⟨y, hy, rfl⟩, ?_⟩
    by_cases hyy : (y.site.id == r.site.id) = true
    · rw [if_pos hyy]
      rw [← eq_of_beq hyy]
      exact hyk
    · rw [if_neg (by simp [eq_false_of_ne_true hyy])]
      exact hyk
  · rw [if_neg hc]
    exact ⟨y, List.mem_append_left _ hy, hyk⟩

theorem foldl_mset_key_stable :
    ∀ (rs : List MatchRow) {m : List MatchRow} {k : Nat},
      (∃ y ∈ m, y.site.id = k) →
      ∃ y ∈ rs.foldl mset m, y.site.id = k := by
  intro rs
  induction rs with
  | nil => intro m k h; simpa using h
  | cons a t ih => intro m k h; exact ih (mset_key_stable m a k h)

theorem foldl_mset_key_present {rs : List MatchRow} {r : MatchRow}
    (h : r ∈ rs) :
    ∀ (m : List MatchRow), ∃ y ∈ rs.foldl mset m, y.site.id = r.site.id := by
  induction rs with
  | nil => simp at h
  | cons a t ih =>
    intro m
    rcases List.mem_cons.mp h with rfl | ht
    · exact foldl_mset_key_stable t ⟨r, mset_self_mem m r, rfl⟩
    · exact ih ht (mset m a)

theorem foldl_msetIfAbsent_key_stable :
    ∀ (rs : List MatchRow) {m : List MatchRow} {k : Nat},
      (∃ y ∈ m, y.site.id = k) →
      ∃ y ∈ rs.foldl msetIfAbsent m, y.site.id = k := by
  intro rs
  induction rs with
  | nil => intro m k h; simpa using h
  | cons a t ih =>
    intro m k h
    obtain ⟨y, hy, hyk⟩ := h
    exact ih ⟨y, msetIfAbsent_preserve hy, hyk⟩

theorem exactRows_shape {reg : List Site} {q : String} {r : MatchRow}
    (h : r ∈ exactRows reg q) :
    r.match_score = 1 ∧ r.match_type = .exact ∧ r.site ∈ reg ∧
      lowerStr r.site.restaurant_name = lowerStr q := by
  unfold exactRows at h
  obtain ⟨s, hs, rfl⟩ := List.mem_map.mp h
  have hf := List.mem_filter.mp hs
  exact ⟨rfl, rfl, hf.1, by simpa using hf.2⟩

theorem fuzzyRows_shape {sim : Sim} {reg : List Site} {q : String} {θ : ℚ}
    {r : MatchRow} (h : r ∈ fuzzyRows sim reg q θ) :
    r.match_type = .fuzzy ∧ r.site ∈ reg ∧
      θ < sim r.site.restaurant_name q := by
  unfold fuzzyRows at h
  have h2 := (sortDescBy_perm _ _).mem_iff.mp h
  obtain ⟨s, hs, rfl⟩ := List.mem_map.mp h2
  have hf := List.mem_filter.mp hs
  exact ⟨rfl, hf.1, by simpa using hf.2⟩

theorem containsRows_shape {reg : List Site} {q : String} {r : MatchRow}
    (h : r ∈ containsRows reg q) :
    r.match_score = ratHalf ∧ r.match_type = .contains ∧ r.site ∈ reg := by
  unfold containsRows at h
  obtain ⟨s, hs, rfl⟩ := List.mem_map.mp h
  exact ⟨rfl, rfl, (List.mem_filter.mp hs).1⟩

theorem exactRows_mem_intro {reg : List Site} {q : String} {s : Site}
    (hs : s ∈ reg) (he : lowerStr s.restaurant_name = lowerStr q) :
    (⟨s, 1, .exact⟩ : MatchRow) ∈ exactRows reg q :=
  List.mem_map.mpr ⟨s, List.mem_filter.mpr ⟨hs, by simp [he]⟩, rfl⟩

/-- C2: for every account name, the merged name-strategy result has no two
entries with the same site id; a site that matches exactly appears with
`match_score = 1` and `match_type = exact` regardless of also matching the
other strategies (insertion priority exact, then fuzzy, then contains, with
first-seen wins); an entry matching neither exactly nor fuzzily is a
contains entry with the fixed score `0.5`; every exact-tagged entry scores
`1` and every contains-tagged entry scores `0.5`; and the final list is
sorted in descending `match_score` order. -/
theorem c2_name_merge (sim : Sim) (reg : List Site) (q : String) (θ : ℚ) :
    ((findAllSitesByRestaurantName sim (.ok reg) q θ).map
        (fun r => r.site.id)).Nodup
    ∧ (∀ r ∈ findAllSitesByRestaurantName sim (.ok reg) q θ,
        lowerStr r.site.restaurant_name = lowerStr q →
        r.match_score = 1 ∧ r.match_type = .exact)
    ∧ (∀ r ∈ findAllSitesByRestaurantName sim (.ok reg) q θ,
        lowerStr r.site.restaurant_name ≠ lowerStr q →
        ¬(θ < sim r.site.restaurant_name q) →
        r.match_score = 1 / 2 ∧ r.match_type = .contains)
    ∧ (∀ r ∈ findAllSitesByRestaurantName sim (.ok reg) q θ,
        (r.match_type = .exact → r.match_score = 1) ∧
        (r.match_type = .contains → r.match_score = 1 / 2))
    ∧ (findAllSitesByRestaurantName sim (.ok reg) q θ).Pairwise
        (fun a b => b.match_score ≤ a.match_score) := by
  have hres : findAllSitesByRestaurantName sim (.ok reg) q θ =
      sortDescBy (fun r => r.match_score)
        ((containsRows reg q).foldl msetIfAbsent
          ((fuzzyRows sim reg q θ).foldl msetIfAbsent
            ((exactRows reg q).foldl mset []))) := rfl
  set m3 := (containsRows reg q).foldl msetIfAbsent
    ((fuzzyRows sim reg q θ).foldl msetIfAbsent
      ((exactRows reg q).foldl mset [])) with hm3
  have hm3mem : ∀ x ∈ m3, x ∈ exactRows reg q ∨ x ∈ fuzzyRows sim reg q θ ∨
      x ∈ containsRows reg q := by
    intro x hx
    rcases mem_foldl_msetIfAbsent hx with h2 | h2
    · rcases mem_foldl_msetIfAbsent h2 with h1 | h1
      · rcases mem_foldl_mset h1 with h0 | h0
        · simp at h0
        · exact Or.inl h0
      · exact Or.inr (Or.inl h1)
    · exact Or.inr (Or.inr h2)
  have hm3nd : (m3.map (fun r => r.site.id)).Nodup :=
    foldl_msetIfAbsent_keys_nodup _
      (foldl_msetIfAbsent_keys_nodup _
        (foldl_mset_keys_nodup _ (by simp)))
  have hmem_res : ∀ x, x ∈ findAllSitesByRestaurantName sim (.ok reg) q θ ↔
      x ∈ m3 := by
    intro x
    rw [hres]
    exact (sortDescBy_perm _ _).mem_iff
  have hus : ((findAllSitesByRestaurantName sim (.ok reg) q θ).map
      (fun r => r.site.id)).Nodup := by
    rw [hres]
    exact ((sortDescBy_perm (fun r => r.match_score) m3).map
      (fun r => r.site.id)).nodup_iff.mpr hm3nd
  have hm1shape : ∀ y ∈ (exactRows reg q).foldl mset [],
      y.match_score = 1 ∧ y.match_type = .exact := by
    intro y hy
    rcases mem_foldl_mset hy with h0 | h0
    · simp at h0
    · exact ⟨(exactRows_shape h0).1, (exactRows_shape h0).2.1⟩
  have hexact : ∀ r ∈ findAllSitesByRestaurantName sim (.ok reg) q θ,
      lowerStr r.site.restaurant_name = lowerStr q →
      r.match_score = 1 ∧ r.match_type = .exact := by
    intro r hr hex
    have hrm3 : r ∈ m3 := (hmem_res r).mp hr
    have hsreg : r.site ∈ reg := by
      rcases hm3mem r hrm3 with h | h | h
      · exact (exactRows_shape h).2.2.1
      · exact (fuzzyRows_shape h).2.1
      · exact (containsRows_shape h).2.2
    have hrow := exactRows_mem_intro hsreg hex
    obtain ⟨y, hy1, hyk⟩ := foldl_mset_key_present hrow []
    have hym3 : y ∈ m3 :=
      foldl_msetIfAbsent_preserve _ (foldl_msetIfAbsent_preserve _ hy1)
    have hyres : y ∈ findAllSitesByRestaurantName sim (.ok reg) q θ :=
      (hmem_res y).mpr hym3
    have hry : r = y :=
      List.inj_on_of_nodup_map hus hr hyres (by simpa using hyk.symm)
    rw [hry]
    exact hm1shape y hy1
  refine ⟨hus, hexact, ?_, ?_, ?_⟩
  · intro r hr hne hnf
    have hrm3 : r ∈ m3 := (hmem_res r).mp hr
    rcases hm3mem r hrm3 with h | h | h
    · exact absurd (exactRows_shape h).2.2.2 hne
    · exact absurd (fuzzyRows_shape h).2.2 hnf
    · exact ⟨by rw [(containsRows_shape h).1, ratHalf_eq],
        (containsRows_shape h).2.1⟩
  · intro r hr
    have hrm3 : r ∈ m3 := (hmem_res r).mp hr
    rcases hm3mem r hrm3 with h | h | h
    · refine ⟨fun _ => (exactRows_shape h).1, fun hc => ?_⟩
      rw [(exactRows_shape h).2.1] at hc
      cases hc
    · refine ⟨fun hc => ?_, fun hc => ?_⟩
      · rw [(fuzzyRows_shape h).1] at hc
        cases hc
      · rw [(fuzzyRows_shape h).1] at hc
        cases hc
    · refine ⟨fun hc => ?_, fun _ => ?_⟩
      · rw [(containsRows_shape h).2.1] at hc
        cases hc
      · rw [(containsRows_shape h).1, ratHalf_eq]
  · rw [hres]
    exact sortDescBy_sorted _ _

/-- Witness for C2 at a concrete registry: a two-site registry queried with
a name that matches one site exactly (and by containment) and the other only
by containment. -/
theorem c2_name_merge_witness :
    ((findAllSitesByRestaurantName (fun _ _ => 0)
        (.ok [⟨1, "Joes Pizza", ["m1"], []⟩, ⟨2, "Joes", ["m2"], []⟩])
        "Joes Pizza" ratThreshold).map (fun r => r.site.id)).Nodup
    ∧ (∀ r ∈ findAllSitesByRestaurantName (fun _ _ => 0)
        (.ok [⟨1, "Joes Pizza", ["m1"], []⟩, ⟨2, "Joes", ["m2"], []⟩])
        "Joes Pizza" ratThreshold,
        lowerStr r.site.restaurant_name = lowerStr "Joes Pizza" →
        r.match_score = 1 ∧ r.match_type = .exact)
    ∧ (findAllSitesByRestaurantName (fun _ _ => 0)
        (.ok [⟨1, "Joes Pizza", ["m1"], []⟩, ⟨2, "Joes", ["m2"], []⟩])
        "Joes Pizza" ratThreshold).Pairwise
        (fun a b => b.match_score ≤ a.match_score) := by
  have h := c2_name_merge (fun _ _ => 0)
    [⟨1, "Joes Pizza", ["m1"], []⟩, ⟨2, "Joes", ["m2"], []⟩]
    "Joes Pizza" ratThreshold
  exact ⟨h.1, h.2.1, h.2.2.2.2⟩

/-! ## Lemmas about token consumption across the workflow steps -/

theorem consume_fst_noValid (db : List PendingRow) (now : Nat) (t : String) :
    noValidToken (consumePendingOAuth db now t).1 now t := by
  intro r hr hrt
  have hf := List.mem_filter.mp hr
  have hp := hf.2
  simp only [Bool.not_eq_true', Bool.and_eq_false_iff] at hp
  rcases hp with hp | hp
  · exact absurd (beq_iff_eq.mpr hrt) (by simp [hp])
  · simpa using of_decide_eq_false hp

theorem delete_noValid (db : List PendingRow) (now : Nat) (t : String) :
    noValidToken (deletePendingByState db t) now t := by
  intro r hr hrt
  have hf := List.mem_filter.mp hr
  have := hf.2
  simp [hrt] at this

theorem noValid_append {db : List PendingRow} {now : Nat} {t : String}
    (h : noValidToken db now t) {row : PendingRow} (hrow : row.state ≠ t) :
    noValidToken (db ++ [row]) now t := by
  intro r hr hrt
  rcases List.mem_append.mp hr with h1 | h1
  · exact h r h1 hrt
  · have : r = row := by simpa using h1
    exact absurd (this ▸ hrt) hrow

theorem consume_of_noValid {db : List PendingRow} {now : Nat} {t : String}
    (h : noValidToken db now t) :
    consumePendingOAuth db now t = (db, none) := by
  have hall : ∀ r ∈ db, (r.state == t && decide (now < r.expires_at)) = false := by
    intro r hr
    by_cases hrt : r.state = t
    · have := h r hr hrt
      simp [Nat.not_lt.mpr this]
    · simp [hrt]
  have h1 : db.filter
      (fun r => !(r.state == t && decide (now < r.expires_at))) = db := by
    rw [List.filter_eq_self]
    intro a ha
    simp [hall a ha]
  have h2 : db.filter
      (fun r => (r.state == t && decide (now < r.expires_at))) = [] := by
    rw [List.filter_eq_nil_iff]
    intro a ha
    simp [hall a ha]
  simp only [consumePendingOAuth, h1, h2, List.head?_nil]

theorem getPendingValid_none_of_noValid {db : List PendingRow} {now : Nat}
    {t : String} (h : noValidToken db now t) :
    getPendingValid db now t = none := by
  have h2 : db.filter
      (fun r => (r.state == t && decide (now < r.expires_at))) = [] := by
    rw [List.filter_eq_nil_iff]
    intro a ha
    by_cases hrt : a.state = t
    · have := h a ha hrt
      simp [Nat.not_lt.mpr this]
    · simp [hrt]
  simp only [getPendingValid, h2, List.head?_nil]

theorem callback_rejects (env : Env) (w : World) (code : Option String)
    (t : String) (ht : t ≠ "") (hcode : jsTruthy code = true)
    (hnv : noValidToken w.pending env.now t) :
    oauthCallback env w code (some t) none = (w, .authExpired) := by
  have hcons : consumePendingOAuth w.pending env.now t = (w.pending, none) :=
    consume_of_noValid hnv
  have htt : jsTruthy (some t) = true := by simp [jsTruthy, ht]
  have h2 : (jsTruthy code && jsTruthy (some t)) = true := by
    simp [hcode, htt]
  have hjn : jsTruthy (none : Option String) = false := rfl
  simp [oauthCallback, h2, hcons, hjn]

theorem selectAudience_rejects (env : Env) (w : World)
    (t : String) (aid aname stag : Option String) (ht : t ≠ "")
    (haid : jsTruthy aid = true)
    (hnv : noValidToken w.pending env.now t) :
    selectAudience env w (some t) aid aname stag = (w, .sessionExpired) := by
  have hget : getPendingValid w.pending env.now t = none :=
    getPendingValid_none_of_noValid hnv
  have htt : jsTruthy (some t) = true := by simp [jsTruthy, ht]
  have h2 : (jsTruthy (some t) && jsTruthy aid) = true := by
    simp [haid, htt]
  simp [selectAudience, h2, hget]

theorem selectLocation_rejects (env : Env) (w : World)
    (t : String) (sid : Option String) (ht : t ≠ "")
    (hsid : jsTruthy sid = true)
    (hnv : noValidToken w.pending env.now t) :
    selectLocation env w (some t) sid = (w, .sessionExpired) := by
  have hget : getPendingValid w.pending env.now t = none :=
    getPendingValid_none_of_noValid hnv
  have htt : jsTruthy (some t) = true := by simp [jsTruthy, ht]
  have h2 : (jsTruthy (some t) && jsTruthy sid) = true := by
    simp [hsid, htt]
  simp [selectLocation, h2, hget]

theorem insertPending_ok {db : List PendingRow} {row : PendingRow}
    {db2 : List PendingRow} (h : insertPending db row = .ok db2) :
    db2 = db ++ [row] := by
  unfold insertPending at h
  by_cases hc : db.any (fun r => r.state == row.state) = true
  · rw [if_pos hc] at h
    cases h
  · rw [if_neg hc] at h
    injection h with h
    exact h.symm

theorem callback_consumes (env : Env) (w : World) (code : Option String)
    (t : String) (w1 : World) (r1 : Response) (hf : env.fresh ≠ t)
    (heq : oauthCallback env w code (some t) none = (w1, r1))
    (hsucc : isConsumingSuccess r1 = true) :
    noValidToken w1.pending env.now t := by
  have hjn : jsTruthy (none : Option String) = false := rfl
  have hW : w1 = (oauthCallback env w code (some t) none).1 := by
    rw [heq]
  have hS : isConsumingSuccess (oauthCallback env w code (some t) none).2
      = true := by
    rw [heq]
    exact hsucc
  rw [hW]
  clear hW heq hsucc
  by_cases hpar : (jsTruthy code && jsTruthy (some t)) = true
  · rcases hcp : consumePendingOAuth w.pending env.now t with ⟨pending1, popt⟩
    have hnv1 : noValidToken pending1 env.now t := by
      have h := consume_fst_noValid w.pending env.now t
      rw [hcp] at h
      exact h
    cases popt with
    | none =>
      simp [oauthCallback, hjn, hpar, hcp] at hS ⊢
      exact hnv1
    | some p =>
      cases hex : env.exchangeCodeForToken (code.getD "") with
      | error e =>
        simp [oauthCallback, hjn, hpar, hcp, hex, isConsumingSuccess] at hS
      | ok tok =>
        cases hmd : env.getAccountMetadata tok with
        | error e =>
          simp [oauthCallback, hjn, hpar, hcp, hex, hmd,
            isConsumingSuccess] at hS
        | ok md =>
          cases haud : env.getAudiences tok md.dataCenter with
          | error e =>
            simp [oauthCallback, hjn, hpar, hcp, hex, hmd, haud,
              isConsumingSuccess] at hS
          | ok audiences =>
            match audiences with
            | [] =>
              simp [oauthCallback, hjn, hpar, hcp, hex, hmd, haud,
                isConsumingSuccess] at hS
            | [aud] =>
              rcases hcs : (findCandidateSitesBody env.sim env.store
                  md.accountName md.loginEmail).sites with _ | ⟨c, rest⟩
              · by_cases h1 : p.mac_address = ""
                · simp [oauthCallback, hjn, hpar, hcp, hex, hmd, haud,
                    findCandidateSites, hcs, h1] at hS ⊢
                  exact hnv1
                · by_cases h2 : p.mac_address = "auto"
                  · simp [oauthCallback, hjn, hpar, hcp, hex, hmd, haud,
                      findCandidateSites, hcs, h1, h2] at hS ⊢
                    exact hnv1
                  · simp [oauthCallback, hjn, hpar, hcp, hex, hmd, haud,
                      findCandidateSites, hcs, h1, h2] at hS ⊢
                    exact hnv1
              · rcases rest with _ | ⟨c2, rest2⟩
                · by_cases hne : (candSite c).mac_addresses.isEmpty = true
                  · simp [oauthCallback, hjn, hpar, hcp, hex, hmd, haud,
                      findCandidateSites, hcs, hne] at hS ⊢
                    exact hnv1
                  · rcases hbulk : bulkUpsertConnections env.bulkFails
                        w.conns env.now
                        ((candSite c).mac_addresses.map (fun mac =>
                          { macAddress := lowerStr mac, accessToken := tok,
                            dataCenter := md.dataCenter,
                            accountId := md.accountId,
                            accountName := md.accountName,
                            audienceId := some aud.id,
                            audienceName := some aud.name,
                            sourceTag := strOrNone
                              (candSite c).restaurant_name : ConnInput }))
                      with ⟨conns2, res⟩
                    cases res with
                    | ok rs =>
                      simp [oauthCallback, hjn, hpar, hcp, hex, hmd, haud,
                        findCandidateSites, hcs, eq_false_of_ne_true hne,
                        hbulk] at hS ⊢
                      exact hnv1
                    | error e =>
                      simp [oauthCallback, hjn, hpar, hcp, hex, hmd, haud,
                        findCandidateSites, hcs, eq_false_of_ne_true hne,
                        hbulk, isConsumingSuccess] at hS
                · by_cases h1 : p.mac_address = ""
                  · cases hins : insertPending pending1
                        { state := env.fresh, mac_address := "auto",
                          redirect_url := some (.blob
                            { accessToken := tok, metadata := md,
                              redirect_url := rawUrl p.redirect_url,
                              audienceId := some aud.id,
                              audienceName := some aud.name,
                              sourceTag := none }),
                          expires_at := env.now + ttl } with
                    | error e =>
                      simp [oauthCallback, hjn, hpar, hcp, hex, hmd, haud,
                        findCandidateSites, hcs, h1, hins,
                        isConsumingSuccess] at hS
                    | ok pending2 =>
                      simp [oauthCallback, hjn, hpar, hcp, hex, hmd, haud,
                        findCandidateSites, hcs, h1, hins] at hS ⊢
                      rw [insertPending_ok hins]
                      exact noValid_append hnv1 hf
                  · cases hins : insertPending pending1
                        { state := env.fresh, mac_address := p.mac_address,
                          redirect_url := some (.blob
                            { accessToken := tok, metadata := md,
                              redirect_url := rawUrl p.redirect_url,
                              audienceId := some aud.id,
                              audienceName := some aud.name,
                              sourceTag := none }),
                          expires_at := env.now + ttl } with
                    | error e =>
                      simp [oauthCallback, hjn, hpar, hcp, hex, hmd, haud,
                        findCandidateSites, hcs, h1, hins,
                        isConsumingSuccess] at hS
                    | ok pending2 =>
                      simp [oauthCallback, hjn, hpar, hcp, hex, hmd, haud,
                        findCandidateSites, hcs, h1, hins] at hS ⊢
                      rw [insertPending_ok hins]
                      exact noValid_append hnv1 hf
            | aud1 :: aud2 :: restA =>
              cases hins : insertPending pending1
                  { state := env.fresh, mac_address := p.mac_address,
                    redirect_url := some (.blob
                      { accessToken := tok, metadata := md,
                        redirect_url := rawUrl p.redirect_url,
                        audienceId := none, audienceName := none,
                        sourceTag := none }),
                    expires_at := env.now + ttl } with
              | error e =>
                simp [oauthCallback, hjn, hpar, hcp, hex, hmd, haud, hins,
                  isConsumingSuccess] at hS
              | ok pending2 =>
                simp [oauthCallback, hjn, hpar, hcp, hex, hmd, haud,
                  hins] at hS ⊢
                rw [insertPending_ok hins]
                exact noValid_append hnv1 hf
  · simp [oauthCallback, hjn, eq_false_of_ne_true hpar,
      isConsumingSuccess] at hS

theorem selectAudience_consumes (env : Env) (w : World) (t : String)
    (aid aname stag : Option String) (w1 : World) (r1 : Response)
    (heq : selectAudience env w (some t) aid aname stag = (w1, r1))
    (hsucc : isConsumingSuccess r1 = true) :
    noValidToken w1.pending env.now t := by
  have hW : w1 = (selectAudience env w (some t) aid aname stag).1 := by
    rw [heq]
  have hS : isConsumingSuccess
      (selectAudience env w (some t) aid aname stag).2 = true := by
    rw [heq]
    exact hsucc
  rw [hW]
  clear hW heq hsucc
  by_cases hpar : (jsTruthy (some t) && jsTruthy aid) = true
  · cases hget : getPendingValid w.pending env.now t with
    | none =>
      simp [selectAudience, hpar, hget, isConsumingSuccess] at hS
    | some p =>
      cases hblob : parseBlob p.redirect_url with
      | error e =>
        simp [selectAudience, hpar, hget, hblob, isConsumingSuccess] at hS
      | ok blob =>
        rcases hcs : (findCandidateSitesBody env.sim env.store
            blob.metadata.accountName blob.metadata.loginEmail).sites
          with _ | ⟨c, rest⟩
        · simp [selectAudience, hpar, hget, hblob, findCandidateSites,
            hcs] at hS ⊢
          exact delete_noValid _ _ _
        · rcases rest with _ | ⟨c2, rest2⟩
          · by_cases hne : (candSite c).mac_addresses.isEmpty = true
            · simp [selectAudience, hpar, hget, hblob, findCandidateSites,
                hcs, hne] at hS ⊢
              exact delete_noValid _ _ _
            · rcases hbulk : bulkUpsertConnections env.bulkFails
                  w.conns env.now
                  ((candSite c).mac_addresses.map (fun mac =>
                    { macAddress := lowerStr mac,
                      accessToken := blob.accessToken,
                      dataCenter := blob.metadata.dataCenter,
                      accountId := blob.metadata.accountId,
                      accountName := blob.metadata.accountName,
                      audienceId := aid, audienceName := aname,
                      sourceTag := jsOr stag
                        (strOrNone (candSite c).restaurant_name)
                      : ConnInput }))
                with ⟨conns2, res⟩
              cases res with
              | ok rs =>
                simp [selectAudience, hpar, hget, hblob,
                  findCandidateSites, hcs, eq_false_of_ne_true hne,
                  hbulk] at hS ⊢
                exact delete_noValid _ _ _
              | error e =>
                simp [selectAudience, hpar, hget, hblob,
                  findCandidateSites, hcs, eq_false_of_ne_true hne,
                  hbulk, isConsumingSuccess] at hS
          · cases hins : insertPending w.pending
                { state := env.fresh, mac_address := p.mac_address,
                  redirect_url := some (.blob
                    { accessToken := blob.accessToken,
                      metadata := blob.metadata,
                      redirect_url := blob.redirect_url,
                      audienceId := aid, audienceName := aname,
                      sourceTag := stag }),
                  expires_at := env.now + ttl } with
            | error e =>
              simp [selectAudience, hpar, hget, hblob, findCandidateSites,
                hcs, hins, isConsumingSuccess] at hS
            | ok pending2 =>
              simp [selectAudience, hpar, hget, hblob, findCandidateSites,
                hcs, hins] at hS ⊢
              exact delete_noValid _ _ _
  · simp [selectAudience, eq_false_of_ne_true hpar,
      isConsumingSuccess] at hS

theorem selectLocation_consumes (env : Env) (w : World) (t : String)
    (sid : Option String) (w1 : World) (r1 : Response)
    (heq : selectLocation env w (some t) sid = (w1, r1))
    (hsucc : isConsumingSuccess r1 = true) :
    noValidToken w1.pending env.now t := by
  have hW : w1 = (selectLocation env w (some t) sid).1 := by
    rw [heq]
  have hS : isConsumingSuccess (selectLocation env w (some t) sid).2
      = true := by
    rw [heq]
    exact hsucc
  rw [hW]
  clear hW heq hsucc
  by_cases hpar : (jsTruthy (some t) && jsTruthy sid) = true
  · cases hget : getPendingValid w.pending env.now t with
    | none =>
      simp [selectLocation, hpar, hget, isConsumingSuccess] at hS
    | some p =>
      cases hblob : parseBlob p.redirect_url with
      | error e =>
        simp [selectLocation, hpar, hget, hblob, isConsumingSuccess] at hS
      | ok blob =>
        cases hstore : env.store with
        | error e =>
          simp [selectLocation, hpar, hget, hblob, hstore,
            isConsumingSuccess] at hS
        | ok reg =>
          cases hfind : reg.find? (fun s => toString s.id == sid.getD "") with
          | none =>
            simp [selectLocation, hpar, hget, hblob, hstore, hfind,
              isConsumingSuccess] at hS
          | some site =>
            by_cases hne : site.mac_addresses.isEmpty = true
            · simp [selectLocation, hpar, hget, hblob, hstore, hfind,
                hne] at hS ⊢
              exact delete_noValid _ _ _
            · rcases hbulk : bulkUpsertConnections env.bulkFails
                  w.conns env.now
                  (site.mac_addresses.map (fun mac =>
                    { macAddress := lowerStr mac,
                      accessToken := blob.accessToken,
                      dataCenter := blob.metadata.dataCenter,
                      accountId := blob.metadata.accountId,
                      accountName := blob.metadata.accountName,
                      audienceId := blob.audienceId,
                      audienceName := blob.audienceName,
                      sourceTag := jsOr blob.sourceTag
                        (strOrNone site.restaurant_name)
                      : ConnInput }))
                with ⟨conns2, res⟩
              cases res with
              | ok rs =>
                simp [selectLocation, hpar, hget, hblob, hstore, hfind,
                  eq_false_of_ne_true hne, hbulk] at hS ⊢
                exact delete_noValid _ _ _
              | error e =>
                simp [selectLocation, hpar, hget, hblob, hstore, hfind,
                  eq_false_of_ne_true hne, hbulk, isConsumingSuccess] at hS
  · simp [selectLocation, eq_false_of_ne_true hpar,
      isConsumingSuccess] at hS

/-- C4: a linking-session token is valid for at most one successful
consumption across all workflow steps (in the sequential request model of
this embedding). Part 1: after any step successfully uses the token (commit,
manual-setup handoff, or persisting a follow-up selection), no valid row for
that token remains. Part 2: any step presented with a token for which no
valid row exists — missing, already consumed, or expired alike — returns
that step's session-expired rejection and leaves the whole world, the
mapping table included, unchanged; since part 2's hypothesis covers both the
consumed and the expired case, the two are rejected identically. -/
theorem c4_token_single_use :
    (∀ (env : Env) (w : World) (s : Step) (t : String) (w1 : World)
        (r1 : Response),
        env.fresh ≠ t →
        runStep env w s (some t) = (w1, r1) →
        isConsumingSuccess r1 = true →
        noValidToken w1.pending env.now t)
    ∧ (∀ (env : Env) (w : World) (s : Step) (t : String),
        t ≠ "" → stepParamsOk s = true →
        noValidToken w.pending env.now t →
        runStep env w s (some t) = (w, stepRejection s)) := by
  constructor
  · intro env w s t w1 r1 hf heq hsucc
    cases s with
    | callback code =>
      exact callback_consumes env w code t w1 r1 hf heq hsucc
    | selectAud aid aname stag =>
      exact selectAudience_consumes env w t aid aname stag w1 r1 heq hsucc
    | selectLoc sid =>
      exact selectLocation_consumes env w t sid w1 r1 heq hsucc
  · intro env w s t ht hpar hnv
    cases s with
    | callback code =>
      exact callback_rejects env w code t ht hpar hnv
    | selectAud aid aname stag =>
      exact selectAudience_rejects env w t aid aname stag ht hpar hnv
    | selectLoc sid =>
      exact selectLocation_rejects env w t sid ht hpar hnv

/-- Witness for C4 at a concrete run: an audience-selection request
consumes token `"t"` (handing off to manual setup), after which the very
same request is rejected with the session-expired response and the world —
including the mapping table — is unchanged. -/
theorem c4_token_single_use_witness :
    noValidToken
      (runStep (envFix (.ok []) []) ⟨[], [rowFix "mac1"]⟩
        (.selectAud (some "aud1") (some "List") none) (some "t")).1.pending
      0 "t"
    ∧ runStep (envFix (.ok []) [])
        (runStep (envFix (.ok []) []) ⟨[], [rowFix "mac1"]⟩
          (.selectAud (some "aud1") (some "List") none) (some "t")).1
        (.selectAud (some "aud1") (some "List") none) (some "t") =
      ((runStep (envFix (.ok []) []) ⟨[], [rowFix "mac1"]⟩
          (.selectAud (some "aud1") (some "List") none) (some "t")).1,
        stepRejection (.selectAud (some "aud1") (some "List") none)) := by
  have h1 : runStep (envFix (.ok []) []) ⟨[], [rowFix "mac1"]⟩
      (.selectAud (some "aud1") (some "List") none) (some "t") =
      (⟨[], []⟩, .redirectSetup
        ⟨"acc", "Nm", some "aud1", some "List", "tk", "dc", none⟩) := rfl
  constructor
  · exact c4_token_single_use.1 (envFix (.ok []) []) ⟨[], [rowFix "mac1"]⟩
      (.selectAud (some "aud1") (some "List") none) "t" _ _
      (by decide) h1 rfl
  · exact c4_token_single_use.2 (envFix (.ok []) [])
      (runStep (envFix (.ok []) []) ⟨[], [rowFix "mac1"]⟩
        (.selectAud (some "aud1") (some "List") none) (some "t")).1
      (.selectAud (some "aud1") (some "List") none) "t"
      (by decide) (by decide)
      (by
        rw [h1]
        intro r hr
        simp at hr)

/-- Counterexample to C7 as stated: on the path reached after audience
selection, a zero-candidate resolution with an explicitly supplied device
identifier (`"aa:bb:cc:dd:ee:01"`, neither empty nor `"auto"`) does NOT
commit a mapping — the handler redirects to manual setup and the mapping
table stays empty. -/
theorem c7_counterexample :
    (selectAudience (envFix (.ok []) []) ⟨[], [rowFix "aa:bb:cc:dd:ee:01"]⟩
        (some "t") (some "aud1") (some "List") none).2 =
      .redirectSetup ⟨"acc", "Nm", some "aud1", some "List", "tk", "dc", none⟩
    ∧ (selectAudience (envFix (.ok []) []) ⟨[], [rowFix "aa:bb:cc:dd:ee:01"]⟩
        (some "t") (some "aud1") (some "List") none).1.conns = []
    ∧ (rowFix "aa:bb:cc:dd:ee:01").mac_address ≠ ""
    ∧ (rowFix "aa:bb:cc:dd:ee:01").mac_address ≠ "auto" :=
  ⟨rfl, rfl, by decide, by decide⟩

/-- C7 amended: with zero candidate sites, the single-audience callback
path commits exactly one mapping directly when an explicit device
identifier was supplied (non-empty, not `"auto"`) and otherwise hands off
to manual entry without committing; the path reached after audience
selection always hands off to manual entry without committing, even when an
explicit device identifier was supplied. In particular, with zero matches
and no explicit device identifier no commit ever happens. -/
theorem c7_zero_candidates :
    (∀ (env : Env) (w : World) (c t : String) (pending1 : List PendingRow)
        (p : PendingRow) (tok : String) (md : Metadata) (aud : Audience)
        (mm : MatchMethod),
        c ≠ "" → t ≠ "" →
        consumePendingOAuth w.pending env.now t = (pending1, some p) →
        env.exchangeCodeForToken c = .ok tok →
        env.getAccountMetadata tok = .ok md →
        env.getAudiences tok md.dataCenter = .ok [aud] →
        findCandidateSitesBody env.sim env.store md.accountName
          md.loginEmail = ⟨[], mm⟩ →
        p.mac_address ≠ "" → p.mac_address ≠ "auto" →
        oauthCallback env w (some c) (some t) none =
          ({ conns := (upsertConnection w.conns env.now
              ⟨p.mac_address, tok, md.dataCenter, md.accountId,
                md.accountName, some aud.id, some aud.name, none⟩).1,
             pending := pending1 }, .successPage))
    ∧ (∀ (env : Env) (w : World) (c t : String) (pending1 : List PendingRow)
        (p : PendingRow) (tok : String) (md : Metadata) (aud : Audience)
        (mm : MatchMethod),
        c ≠ "" → t ≠ "" →
        consumePendingOAuth w.pending env.now t = (pending1, some p) →
        env.exchangeCodeForToken c = .ok tok →
        env.getAccountMetadata tok = .ok md →
        env.getAudiences tok md.dataCenter = .ok [aud] →
        findCandidateSitesBody env.sim env.store md.accountName
          md.loginEmail = ⟨[], mm⟩ →
        (p.mac_address = "" ∨ p.mac_address = "auto") →
        oauthCallback env w (some c) (some t) none =
          ({ conns := w.conns, pending := pending1 },
            .redirectSetup ⟨md.accountId, md.accountName, some aud.id,
              some aud.name, tok, md.dataCenter, none⟩))
    ∧ (∀ (env : Env) (w : World) (t aid : String)
        (aname stag : Option String) (p : PendingRow) (blob : SessionBlob)
        (mm : MatchMethod),
        t ≠ "" → aid ≠ "" →
        getPendingValid w.pending env.now t = some p →
        parseBlob p.redirect_url = .ok blob →
        findCandidateSitesBody env.sim env.store blob.metadata.accountName
          blob.metadata.loginEmail = ⟨[], mm⟩ →
        selectAudience env w (some t) (some aid) aname stag =
          ({ conns := w.conns,
             pending := deletePendingByState w.pending t },
            .redirectSetup ⟨blob.metadata.accountId,
              blob.metadata.accountName, some aid, aname, blob.accessToken,
              blob.metadata.dataCenter, none⟩)) := by
  refine ⟨?_, ?_, ?_⟩
  · intro env w c t pending1 p tok md aud mm hc ht hcons hex hmd haud hcb
      hm1 hm2
    have hjn : jsTruthy (none : Option String) = false := rfl
    have h2 : (jsTruthy (some c) && jsTruthy (some t)) = true := by
      simp [jsTruthy, hc, ht]
    simp [oauthCallback, hjn, h2, hcons, hex, hmd, haud,
      findCandidateSites, hcb, hm1, hm2]
  · intro env w c t pending1 p tok md aud mm hc ht hcons hex hmd haud hcb
      hmac
    have hjn : jsTruthy (none : Option String) = false := rfl
    have h2 : (jsTruthy (some c) && jsTruthy (some t)) = true := by
      simp [jsTruthy, hc, ht]
    rcases hmac with hm | hm
    · simp [oauthCallback, hjn, h2, hcons, hex, hmd, haud,
        findCandidateSites, hcb, hm]
    · simp [oauthCallback, hjn, h2, hcons, hex, hmd, haud,
        findCandidateSites, hcb, hm]
  · intro env w t aid aname stag p blob mm ht haid hget hblob hcb
    have h2 : (jsTruthy (some t) && jsTruthy (some aid)) = true := by
      simp [jsTruthy, ht, haid]
    simp [selectAudience, h2, hget, hblob, findCandidateSites, hcb]

/-- Witness for C7 (amended) at concrete runs: the callback with an
explicit device identifier and zero candidates commits exactly one mapping
directly; the audience-selection step with zero candidates hands off to
manual setup with the mapping table untouched. -/
theorem c7_zero_candidates_witness :
    oauthCallback (envFix (.ok []) [⟨"aud1", "List"⟩])
        ⟨[], [⟨"t", "aa:bb:cc:dd:ee:01", none, 100⟩]⟩
        (some "c") (some "t") none =
      ({ conns := (upsertConnection [] 0
          ⟨"aa:bb:cc:dd:ee:01", "tk", "dc", "acc", "Nm", some "aud1",
            some "List", none⟩).1,
         pending := [] }, .successPage)
    ∧ selectAudience (envFix (.ok []) []) ⟨[], [rowFix "aa:bb:cc:dd:ee:01"]⟩
        (some "t") (some "aud1") (some "List") none =
      ({ conns := [],
         pending := deletePendingByState [rowFix "aa:bb:cc:dd:ee:01"] "t" },
        .redirectSetup ⟨"acc", "Nm", some "aud1", some "List", "tk", "dc",
          none⟩) := by
  constructor
  · exact c7_zero_candidates.1 (envFix (.ok []) [⟨"aud1", "List"⟩])
      ⟨[], [⟨"t", "aa:bb:cc:dd:ee:01", none, 100⟩]⟩ "c" "t" []
      ⟨"t", "aa:bb:cc:dd:ee:01", none, 100⟩ "tk" mdFix ⟨"aud1", "List"⟩
      .nomatch (by decide) (by decide) rfl rfl rfl rfl rfl (by decide)
      (by decide)
  · exact c7_zero_candidates.2.2 (envFix (.ok []) [])
      ⟨[], [rowFix "aa:bb:cc:dd:ee:01"]⟩ "t" "aud1" (some "List") none
      (rowFix "aa:bb:cc:dd:ee:01") blobFix .nomatch (by decide) (by decide)
      rfl rfl rfl

/-! ## Lemmas about committed rows (device-identifier and tag policy) -/

theorem rowMatches_connRow (c : ConnInput) (created now : Nat) :
    rowMatches c (connRow c created now) :=
  ⟨rfl, rfl, rfl, rfl, rfl, rfl, rfl, rfl⟩

theorem upsert_returned_mem (db : List Conn) (now : Nat) (c : ConnInput) :
    (upsertConnection db now c).2 ∈ (upsertConnection db now c).1 ∧
      rowMatches c (upsertConnection db now c).2 := by
  cases hf : db.find? (fun z => z.mac_address == c.macAddress) with
  | none =>
    simp only [upsertConnection, hf]
    exact ⟨List.mem_append_right _ (by simp), rowMatches_connRow c now now⟩
  | some old =>
    have hmem := List.mem_of_find?_eq_some hf
    have hpo : (old.mac_address == c.macAddress) = true := by
      simpa using List.find?_some hf
    simp only [upsertConnection, hf]
    refine ⟨List.mem_map.mpr ⟨old, hmem, by simp [hpo]⟩,
      rowMatches_connRow c old.created_at now⟩

theorem upsert_keeps (db : List Conn) (now : Nat) (x c : ConnInput)
    (hxc : x.macAddress = c.macAddress → x = c)
    (h : ∃ r ∈ db, rowMatches c r) :
    ∃ r ∈ (upsertConnection db now x).1, rowMatches c r := by
  obtain ⟨r, hr, hm⟩ := h
  cases hf : db.find? (fun z => z.mac_address == x.macAddress) with
  | none =>
    simp only [upsertConnection, hf]
    exact ⟨r, List.mem_append_left _ hr, hm⟩
  | some old =>
    simp only [upsertConnection, hf]
    by_cases hrx : r.mac_address = x.macAddress
    · have hcx : x = c := by
        apply hxc
        rw [← hrx]
        exact hm.1
      refine ⟨connRow x old.created_at now,
        List.mem_map.mpr ⟨r, hr, by simp [hrx]⟩, ?_⟩
      rw [hcx]
      exact rowMatches_connRow c old.created_at now
    · exact ⟨r, List.mem_map.mpr ⟨r, hr, by simp [hrx]⟩, hm⟩

theorem foldl_upsert_keeps (now : Nat) (c : ConnInput) :
    ∀ (cs : List ConnInput) (db : List Conn),
      (∀ x ∈ cs, x.macAddress = c.macAddress → x = c) →
      (∃ r ∈ db, rowMatches c r) →
      ∃ r ∈ cs.foldl (fun d x => (upsertConnection d now x).1) db,
        rowMatches c r := by
  intro cs
  induction cs with
  | nil =>
    intro db _ h
    simpa using h
  | cons x rest ih =>
    intro db hsame h
    exact ih (upsertConnection db now x).1
      (fun z hz => hsame z (List.mem_cons_of_mem _ hz))
      (upsert_keeps db now x c (hsame x (List.mem_cons_self _ _)) h)

theorem foldl_upsert_self (now : Nat) (c : ConnInput) :
    ∀ (cs : List ConnInput) (db : List Conn), c ∈ cs →
      (∀ x ∈ cs, x.macAddress = c.macAddress → x = c) →
      ∃ r ∈ cs.foldl (fun d x => (upsertConnection d now x).1) db,
        rowMatches c r := by
  intro cs
  induction cs with
  | nil =>
    intro db hc
    simp at hc
  | cons x rest ih =>
    intro db hc hsame
    rcases List.mem_cons.mp hc with rfl | hcr
    · exact foldl_upsert_keeps now c rest (upsertConnection db now c).1
        (fun z hz => hsame z (List.mem_cons_of_mem _ hz))
        ⟨(upsertConnection db now c).2, (upsert_returned_mem db now c).1,
          (upsert_returned_mem db now c).2⟩
    · exact ih (upsertConnection db now x).1 hcr
        (fun z hz => hsame z (List.mem_cons_of_mem _ hz))

theorem bulk_success_rows (fails : ConnInput → Bool) (db : List Conn)
    (now : Nat) (macs : List String) (mk : String → ConnInput)
    (hmk : ∀ m, (mk m).macAddress = lowerStr m)
    (hcong : ∀ m1 m2, lowerStr m1 = lowerStr m2 → mk m1 = mk m2)
    (hok : ∀ x, fails x = false) (m : String) (hm : m ∈ macs) :
    ∃ r ∈ (bulkUpsertConnections fails db now (macs.map mk)).1,
      rowMatches (mk m) r := by
  obtain ⟨rs, hrs⟩ := bulkGo_ok fails now db [] (macs.map mk)
    (fun x _ => hok x)
  have h1 : (bulkUpsertConnections fails db now (macs.map mk)).1 =
      (macs.map mk).foldl (fun d x => (upsertConnection d now x).1) db := by
    simp [bulkUpsertConnections, hrs]
  rw [h1]
  apply foldl_upsert_self now (mk m) (macs.map mk) db
    (List.mem_map.mpr ⟨m, hm, rfl⟩)
  intro x hx hxm
  obtain ⟨m1, hm1, rfl⟩ := List.mem_map.mp hx
  apply hcong
  rw [← hmk m1, ← hmk m]
  exact hxm

/-- Counterexample to C8 as stated: the direct commit of an explicitly
supplied device identifier (single audience, zero candidate sites) stores
the identifier exactly as supplied — `"AA:BB:CC:DD:EE:FF"`, which is not
lowercase — so device identifiers are not normalized to lowercase on every
commit path. -/
theorem c8_counterexample :
    (oauthCallback (envFix (.ok []) [⟨"aud1", "List"⟩])
        ⟨[], [⟨"t", "AA:BB:CC:DD:EE:FF", none, 100⟩]⟩
        (some "c") (some "t") none).1.conns =
      [⟨"AA:BB:CC:DD:EE:FF", "tk", "dc", "acc", "Nm", some "aud1",
        some "List", none, 0, 0⟩]
    ∧ lowerStr "AA:BB:CC:DD:EE:FF" ≠ "AA:BB:CC:DD:EE:FF" :=
  ⟨rfl, by decide⟩

/-- C8 amended: on every bulk commit path (the location-selection commit,
the audience-selection auto-map commit, and the single-audience callback
auto-map commit) each stored device identifier is the lowercased site
identifier and the stored `source_tag` follows the policy "explicit
user-supplied tag if given, else the matched site's display name, else
null" (with no user tag available on the callback path); but on the direct
commit of an explicitly supplied device identifier the identifier is stored
exactly as supplied (not lowercased) with a null tag. -/
theorem c8_commit_tags :
    (∀ (env : Env) (w : World) (t sid : String) (p : PendingRow)
        (blob : SessionBlob) (reg : List Site) (site : Site),
        t ≠ "" → sid ≠ "" →
        getPendingValid w.pending env.now t = some p →
        parseBlob p.redirect_url = .ok blob →
        env.store = .ok reg →
        reg.find? (fun s => toString s.id == sid) = some site →
        site.mac_addresses.isEmpty = false →
        (∀ x, env.bulkFails x = false) →
        (selectLocation env w (some t) (some sid)).2 = .successPage
        ∧ ∀ m ∈ site.mac_addresses,
            ∃ r ∈ (selectLocation env w (some t) (some sid)).1.conns,
              r.mac_address = lowerStr m ∧
              r.source_tag =
                jsOr blob.sourceTag (strOrNone site.restaurant_name))
    ∧ (∀ (env : Env) (w : World) (t aid : String)
        (aname stag : Option String) (p : PendingRow) (blob : SessionBlob)
        (c : CandRow),
        t ≠ "" → aid ≠ "" →
        getPendingValid w.pending env.now t = some p →
        parseBlob p.redirect_url = .ok blob →
        (findCandidateSitesBody env.sim env.store blob.metadata.accountName
          blob.metadata.loginEmail).sites = [c] →
        (candSite c).mac_addresses.isEmpty = false →
        (∀ x, env.bulkFails x = false) →
        (selectAudience env w (some t) (some aid) aname stag).2 =
          .successPage
        ∧ ∀ m ∈ (candSite c).mac_addresses,
            ∃ r ∈ (selectAudience env w (some t) (some aid)
                aname stag).1.conns,
              r.mac_address = lowerStr m ∧
              r.source_tag =
                jsOr stag (strOrNone (candSite c).restaurant_name))
    ∧ (∀ (env : Env) (w : World) (c t : String)
        (pending1 : List PendingRow) (p : PendingRow) (tok : String)
        (md : Metadata) (aud : Audience) (cand : CandRow),
        c ≠ "" → t ≠ "" →
        consumePendingOAuth w.pending env.now t = (pending1, some p) →
        env.exchangeCodeForToken c = .ok tok →
        env.getAccountMetadata tok = .ok md →
        env.getAudiences tok md.dataCenter = .ok [aud] →
        (findCandidateSitesBody env.sim env.store md.accountName
          md.loginEmail).sites = [cand] →
        (candSite cand).mac_addresses.isEmpty = false →
        (∀ x, env.bulkFails x = false) →
        (oauthCallback env w (some c) (some t) none).2 = .successPage
        ∧ ∀ m ∈ (candSite cand).mac_addresses,
            ∃ r ∈ (oauthCallback env w (some c) (some t) none).1.conns,
              r.mac_address = lowerStr m ∧
              r.source_tag = strOrNone (candSite cand).restaurant_name)
    ∧ (∀ (env : Env) (w : World) (c t : String)
        (pending1 : List PendingRow) (p : PendingRow) (tok : String)
        (md : Metadata) (aud : Audience) (mm : MatchMethod),
        c ≠ "" → t ≠ "" →
        consumePendingOAuth w.pending env.now t = (pending1, some p) →
        env.exchangeCodeForToken c = .ok tok →
        env.getAccountMetadata tok = .ok md →
        env.getAudiences tok md.dataCenter = .ok [aud] →
        findCandidateSitesBody env.sim env.store md.accountName
          md.loginEmail = ⟨[], mm⟩ →
        p.mac_address ≠ "" → p.mac_address ≠ "auto" →
        (oauthCallback env w (some c) (some t) none).2 = .successPage
        ∧ ∃ r ∈ (oauthCallback env w (some c) (some t) none).1.conns,
            r.mac_address = p.mac_address ∧ r.source_tag = none) := by
  refine ⟨?_, ?_, ?_, ?_⟩
  · intro env w t sid p blob reg site ht hsid hget hblob hstore hfind hne
      hfails
    have h2 : (jsTruthy (some t) && jsTruthy (some sid)) = true := by
      simp [jsTruthy, ht, hsid]
    obtain ⟨rs, hrs⟩ := bulkGo_ok env.bulkFails env.now w.conns []
      (site.mac_addresses.map (fun mac =>
        { macAddress := lowerStr mac, accessToken := blob.accessToken,
          dataCenter := blob.metadata.dataCenter,
          accountId := blob.metadata.accountId,
          accountName := blob.metadata.accountName,
          audienceId := blob.audienceId, audienceName := blob.audienceName,
          sourceTag := jsOr blob.sourceTag (strOrNone site.restaurant_name)
          : ConnInput })) (fun x _ => hfails x)
    have hbulk : bulkUpsertConnections env.bulkFails w.conns env.now
        (site.mac_addresses.map (fun mac =>
          { macAddress := lowerStr mac, accessToken := blob.accessToken,
            dataCenter := blob.metadata.dataCenter,
            accountId := blob.metadata.accountId,
            accountName := blob.metadata.accountName,
            audienceId := blob.audienceId,
            audienceName := blob.audienceName,
            sourceTag := jsOr blob.sourceTag
              (strOrNone site.restaurant_name) : ConnInput })) =
        ((site.mac_addresses.map (fun mac =>
          { macAddress := lowerStr mac, accessToken := blob.accessToken,
            dataCenter := blob.metadata.dataCenter,
            accountId := blob.metadata.accountId,
            accountName := blob.metadata.accountName,
            audienceId := blob.audienceId,
            audienceName := blob.audienceName,
            sourceTag := jsOr blob.sourceTag
              (strOrNone site.restaurant_name) : ConnInput })).foldl
          (fun d x => (upsertConnection d env.now x).1) w.conns,
          .ok rs) := by
      simp [bulkUpsertConnections, hrs]
    have heval : selectLocation env w (some t) (some sid) =
        ({ conns := (site.mac_addresses.map (fun mac =>
            { macAddress := lowerStr mac, accessToken := blob.accessToken,
              dataCenter := blob.metadata.dataCenter,
              accountId := blob.metadata.accountId,
              accountName := blob.metadata.accountName,
              audienceId := blob.audienceId,
              audienceName := blob.audienceName,
              sourceTag := jsOr blob.sourceTag
                (strOrNone site.restaurant_name) : ConnInput })).foldl
            (fun d x => (upsertConnection d env.now x).1) w.conns,
           pending := deletePendingByState w.pending t },
          .successPage) := by
      simp [selectLocation, h2, hget, hblob, hstore, hfind, hne, hbulk]
    refine ⟨by rw [heval], ?_⟩
    intro m hm
    have hB := bulk_success_rows env.bulkFails w.conns env.now
      site.mac_addresses (fun mac =>
        { macAddress := lowerStr mac, accessToken := blob.accessToken,
          dataCenter := blob.metadata.dataCenter,
          accountId := blob.metadata.accountId,
          accountName := blob.metadata.accountName,
          audienceId := blob.audienceId, audienceName := blob.audienceName,
          sourceTag := jsOr blob.sourceTag (strOrNone site.restaurant_name)
          : ConnInput })
      (fun _ => rfl) (fun m1 m2 h => by simp only [h]) hfails m hm
    obtain ⟨r, hr, hrm⟩ := hB
    rw [hbulk] at hr
    refine ⟨r, ?_, hrm.1, hrm.2.2.2.2.2.2.2⟩
    rw [heval]
    exact hr
  · intro env w t aid aname stag p blob c ht haid hget hblob hcs hne hfails
    have h2 : (jsTruthy (some t) && jsTruthy (some aid)) = true := by
      simp [jsTruthy, ht, haid]
    obtain ⟨rs, hrs⟩ := bulkGo_ok env.bulkFails env.now w.conns []
      ((candSite c).mac_addresses.map (fun mac =>
        { macAddress := lowerStr mac, accessToken := blob.accessToken,
          dataCenter := blob.metadata.dataCenter,
          accountId := blob.metadata.accountId,
          accountName := blob.metadata.accountName,
          audienceId := some aid, audienceName := aname,
          sourceTag := jsOr stag (strOrNone (candSite c).restaurant_name)
          : ConnInput })) (fun x _ => hfails x)
    have hbulk : bulkUpsertConnections env.bulkFails w.conns env.now
        ((candSite c).mac_addresses.map (fun mac =>
          { macAddress := lowerStr mac, accessToken := blob.accessToken,
            dataCenter := blob.metadata.dataCenter,
            accountId := blob.metadata.accountId,
            accountName := blob.metadata.accountName,
            audienceId := some aid, audienceName := aname,
            sourceTag := jsOr stag
              (strOrNone (candSite c).restaurant_name) : ConnInput })) =
        (((candSite c).mac_addresses.map (fun mac =>
          { macAddress := lowerStr mac, accessToken := blob.accessToken,
            dataCenter := blob.metadata.dataCenter,
            accountId := blob.metadata.accountId,
            accountName := blob.metadata.accountName,
            audienceId := some aid, audienceName := aname,
            sourceTag := jsOr stag
              (strOrNone (candSite c).restaurant_name) : ConnInput })).foldl
          (fun d x => (upsertConnection d env.now x).1) w.conns,
          .ok rs) := by
      simp [bulkUpsertConnections, hrs]
    have heval : selectAudience env w (some t) (some aid) aname stag =
        ({ conns := ((candSite c).mac_addresses.map (fun mac =>
            { macAddress := lowerStr mac, accessToken := blob.accessToken,
              dataCenter := blob.metadata.dataCenter,
              accountId := blob.metadata.accountId,
              accountName := blob.metadata.accountName,
              audienceId := some aid, audienceName := aname,
              sourceTag := jsOr stag
                (strOrNone (candSite c).restaurant_name) : ConnInput })).foldl
            (fun d x => (upsertConnection d env.now x).1) w.conns,
           pending := deletePendingByState w.pending t },
          .successPage) := by
      simp [selectAudience, h2, hget, hblob, findCandidateSites, hcs, hne,
        hbulk]
    refine ⟨by rw [heval], ?_⟩
    intro m hm
    have hB := bulk_success_rows env.bulkFails w.conns env.now
      (candSite c).mac_addresses (fun mac =>
        { macAddress := lowerStr mac, accessToken := blob.accessToken,
          dataCenter := blob.metadata.dataCenter,
          accountId := blob.metadata.accountId,
          accountName := blob.metadata.accountName,
          audienceId := some aid, audienceName := aname,
          sourceTag := jsOr stag (strOrNone (candSite c).restaurant_name)
          : ConnInput })
      (fun _ => rfl) (fun m1 m2 h => by simp only [h]) hfails m hm
    obtain ⟨r, hr, hrm⟩ := hB
    rw [hbulk] at hr
    refine ⟨r, ?_, hrm.1, hrm.2.2.2.2.2.2.2⟩
    rw [heval]
    exact hr
  · intro env w c t pending1 p tok md aud cand hc ht hcons hex hmd haud hcs
      hne hfails
    have hjn : jsTruthy (none : Option String) = false := rfl
    have h2 : (jsTruthy (some c) && jsTruthy (some t)) = true := by
      simp [jsTruthy, hc, ht]
    obtain ⟨rs, hrs⟩ := bulkGo_ok env.bulkFails env.now w.conns []
      ((candSite cand).mac_addresses.map (fun mac =>
        { macAddress := lowerStr mac, accessToken := tok,
          dataCenter := md.dataCenter, accountId := md.accountId,
          accountName := md.accountName, audienceId := some aud.id,
          audienceName := some aud.name,
          sourceTag := strOrNone (candSite cand).restaurant_name
          : ConnInput })) (fun x _ => hfails x)
    have hbulk : bulkUpsertConnections env.bulkFails w.conns env.now
        ((candSite cand).mac_addresses.map (fun mac =>
          { macAddress := lowerStr mac, accessToken := tok,
            dataCenter := md.dataCenter, accountId := md.accountId,
            accountName := md.accountName, audienceId := some aud.id,
            audienceName := some aud.name,
            sourceTag := strOrNone (candSite cand).restaurant_name
            : ConnInput })) =
        (((candSite cand).mac_addresses.map (fun mac =>
          { macAddress := lowerStr mac, accessToken := tok,
            dataCenter := md.dataCenter, accountId := md.accountId,
            accountName := md.accountName, audienceId := some aud.id,
            audienceName := some aud.name,
            sourceTag := strOrNone (candSite cand).restaurant_name
            : ConnInput })).foldl
          (fun d x => (upsertConnection d env.now x).1) w.conns,
          .ok rs) := by
      simp [bulkUpsertConnections, hrs]
    have heval : oauthCallback env w (some c) (some t) none =
        ({ conns := ((candSite cand).mac_addresses.map (fun mac =>
            { macAddress := lowerStr mac, accessToken := tok,
              dataCenter := md.dataCenter, accountId := md.accountId,
              accountName := md.accountName, audienceId := some aud.id,
              audienceName := some aud.name,
              sourceTag := strOrNone (candSite cand).restaurant_name
              : ConnInput })).foldl
            (fun d x => (upsertConnection d env.now x).1) w.conns,
           pending := pending1 },
          .successPage) := by
      simp [oauthCallback, hjn, h2, hcons, hex, hmd, haud,
        findCandidateSites, hcs, hne, hbulk]
    refine ⟨by rw [heval], ?_⟩
    intro m hm
    have hB := bulk_success_rows env.bulkFails w.conns env.now
      (candSite cand).mac_addresses (fun mac =>
        { macAddress := lowerStr mac, accessToken := tok,
          dataCenter := md.dataCenter, accountId := md.accountId,
          accountName := md.accountName, audienceId := some aud.id,
          audienceName := some aud.name,
          sourceTag := strOrNone (candSite cand).restaurant_name
          : ConnInput })
      (fun _ => rfl) (fun m1 m2 h => by simp only [h]) hfails m hm
    obtain ⟨r, hr, hrm⟩ := hB
    rw [hbulk] at hr
    refine ⟨r, ?_, hrm.1, hrm.2.2.2.2.2.2.2⟩
    rw [heval]
    exact hr
  · intro env w c t pending1 p tok md aud mm hc ht hcons hex hmd haud hcb
      hm1 hm2
    have hjn : jsTruthy (none : Option String) = false := rfl
    have h2 : (jsTruthy (some c) && jsTruthy (some t)) = true := by
      simp [jsTruthy, hc, ht]
    have heval : oauthCallback env w (some c) (some t) none =
        ({ conns := (upsertConnection w.conns env.now
            ⟨p.mac_address, tok, md.dataCenter, md.accountId,
              md.accountName, some aud.id, some aud.name, none⟩).1,
           pending := pending1 }, .successPage) := by
      simp [oauthCallback, hjn, h2, hcons, hex, hmd, haud,
        findCandidateSites, hcb, hm1, hm2]
    refine ⟨by rw [heval], ?_⟩
    have hu := upsert_returned_mem w.conns env.now
      ⟨p.mac_address, tok, md.dataCenter, md.accountId, md.accountName,
        some aud.id, some aud.name, none⟩
    refine ⟨(upsertConnection w.conns env.now
        ⟨p.mac_address, tok, md.dataCenter, md.accountId, md.accountName,
          some aud.id, some aud.name, none⟩).2, ?_, hu.2.1, ?_⟩
    · rw [heval]
      exact hu.1
    · exact hu.2.2.2.2.2.2.2.2

/-- Witness for C8 (amended) at concrete runs: a location-selection commit
stores the site's device identifier lowercased with the site name as tag
(no user tag in the session), while the direct commit stores the supplied
identifier unchanged with a null tag. -/
theorem c8_commit_tags_witness :
    ((selectLocation (envFix (.ok [⟨5, "Joes", ["M1:AA"], []⟩]) [])
        ⟨[], [rowFix "auto"]⟩ (some "t") (some "5")).2 = .successPage
      ∧ ∀ m ∈ (⟨5, "Joes", ["M1:AA"], []⟩ : Site).mac_addresses,
          ∃ r ∈ (selectLocation
              (envFix (.ok [⟨5, "Joes", ["M1:AA"], []⟩]) [])
              ⟨[], [rowFix "auto"]⟩ (some "t") (some "5")).1.conns,
            r.mac_address = lowerStr m ∧
            r.source_tag = jsOr blobFix.sourceTag (strOrNone "Joes"))
    ∧ ((oauthCallback (envFix (.ok []) [⟨"aud1", "List"⟩])
        ⟨[], [⟨"t", "AA:BB:CC:DD:EE:FF", none, 100⟩]⟩ (some "c") (some "t")
        none).2 = .successPage
      ∧ ∃ r ∈ (oauthCallback (envFix (.ok []) [⟨"aud1", "List"⟩])
          ⟨[], [⟨"t", "AA:BB:CC:DD:EE:FF", none, 100⟩]⟩ (some "c")
          (some "t") none).1.conns,
          r.mac_address = "AA:BB:CC:DD:EE:FF" ∧ r.source_tag = none) := by
  constructor
  · exact c8_commit_tags.1 (envFix (.ok [⟨5, "Joes", ["M1:AA"], []⟩]) [])
      ⟨[], [rowFix "auto"]⟩ "t" "5" (rowFix "auto") blobFix
      [⟨5, "Joes", ["M1:AA"], []⟩] ⟨5, "Joes", ["M1:AA"], []⟩
      (by decide) (by decide) rfl rfl rfl rfl rfl (fun x => rfl)
  · exact c8_commit_tags.2.2.2 (envFix (.ok []) [⟨"aud1", "List"⟩])
      ⟨[], [⟨"t", "AA:BB:CC:DD:EE:FF", none, 100⟩]⟩ "c" "t" []
      ⟨"t", "AA:BB:CC:DD:EE:FF", none, 100⟩ "tk" mdFix ⟨"aud1", "List"⟩
      .nomatch (by decide) (by decide) rfl rfl rfl rfl rfl (by decide)
      (by decide)

/-! ## The contact webhook auto-mapping -/

/-- C10: for a contact webhook whose MAC has no stored connection but whose
body carries a location name, a non-empty fuzzy search over existing
connections' account names at threshold `0.3` makes the handler silently
create and persist a new connection for that MAC — copying the
best-scoring match's access token, data center, account and audience, with
the supplied location name as `source_tag` — and sync the contact through
it (the single recorded Mailchimp call uses the copied credentials); the
head of the search result is a maximal-score row. If the search returns
nothing or the creating upsert fails, the request is answered 404 and the
connection table is unchanged with no sync call made. -/
theorem c10_webhook_automap :
    (∀ (env : WebhookEnv) (conns : List Conn) (log : List LogRow)
        (body : ContactBody) (mac em loc : String) (best : Conn × ℚ)
        (restM : List (Conn × ℚ)),
        body.mac_address = some mac → mac ≠ "" →
        body.email = some em → em ≠ "" → emailOk em = true →
        body.location_name = some loc → loc ≠ "" →
        getConnectionByMac conns mac = none →
        findConnectionsByAccountName env.sim conns loc ratThreshold =
          best :: restM →
        env.upsertFails = false → env.syncOk = true →
        (∃ r ∈ (webhookContact env conns log body).conns,
            r.mac_address = mac ∧ r.access_token = best.1.access_token ∧
            r.data_center = best.1.data_center ∧
            r.account_id = best.1.account_id ∧
            r.account_name = best.1.account_name ∧
            r.audience_id = best.1.audience_id ∧
            r.audience_name = best.1.audience_name ∧
            r.source_tag = some loc)
        ∧ (webhookContact env conns log body).calls =
            [⟨best.1.access_token, best.1.data_center, best.1.audience_id,
              em, loc :: (if jsTruthy body.source then [body.source.getD ""]
                else [])⟩]
        ∧ (webhookContact env conns log body).resp =
            .ok best.1.account_name best.1.audience_name
              (loc :: (if jsTruthy body.source then [body.source.getD ""]
                else []))
        ∧ (∀ q ∈ restM, q.2 ≤ best.2))
    ∧ (∀ (env : WebhookEnv) (conns : List Conn) (log : List LogRow)
        (body : ContactBody) (mac em loc : String),
        body.mac_address = some mac → mac ≠ "" →
        body.email = some em → em ≠ "" → emailOk em = true →
        body.location_name = some loc → loc ≠ "" →
        getConnectionByMac conns mac = none →
        (findConnectionsByAccountName env.sim conns loc ratThreshold = [] ∨
          env.upsertFails = true) →
        (webhookContact env conns log body).resp = .notFound
        ∧ (webhookContact env conns log body).conns = conns
        ∧ (webhookContact env conns log body).calls = []) := by
  constructor
  · intro env conns log body mac em loc best restM hbm hmac hbe hem hemok
      hbl hloc hc0 hfind hup hsync
    have hu := upsert_returned_mem conns env.now
      { macAddress := mac, accessToken := best.1.access_token,
        dataCenter := best.1.data_center, accountId := best.1.account_id,
        accountName := best.1.account_name,
        audienceId := best.1.audience_id,
        audienceName := best.1.audience_name, sourceTag := some loc }
    have heval : webhookContact env conns log body =
        ⟨(upsertConnection conns env.now
            { macAddress := mac, accessToken := best.1.access_token,
              dataCenter := best.1.data_center,
              accountId := best.1.account_id,
              accountName := best.1.account_name,
              audienceId := best.1.audience_id,
              audienceName := best.1.audience_name,
              sourceTag := some loc }).1,
          log ++ [⟨mac, some em, true, none⟩],
          [⟨best.1.access_token, best.1.data_center, best.1.audience_id,
            em, loc :: (if jsTruthy body.source then [body.source.getD ""]
              else [])⟩],
          .ok best.1.account_name best.1.audience_name
            (loc :: (if jsTruthy body.source then [body.source.getD ""]
              else []))⟩ := by
      simp [webhookContact, hbm, hbe, hbl, jsTruthy, hmac, hem, hloc,
        hemok, hc0, tryAutoMapping, hfind, hup, hsync, hu.2.2.1,
        hu.2.2.2.1, hu.2.2.2.2.2.1, hu.2.2.2.2.2.2.1,
        hu.2.2.2.2.2.2.2.1, hu.2.2.2.2.2.2.2.2]
    have hsorted : (findConnectionsByAccountName env.sim conns loc
        ratThreshold).Pairwise (fun a b => b.2 ≤ a.2) := by
      unfold findConnectionsByAccountName
      exact List.Pairwise.sublist (List.take_sublist _ _)
        (sortDescBy_sorted _ _)
    rw [hfind] at hsorted
    refine ⟨?_, by rw [heval], by rw [heval],
      (List.pairwise_cons.mp hsorted).1⟩
    refine ⟨(upsertConnection conns env.now
        { macAddress := mac, accessToken := best.1.access_token,
          dataCenter := best.1.data_center, accountId := best.1.account_id,
          accountName := best.1.account_name,
          audienceId := best.1.audience_id,
          audienceName := best.1.audience_name,
          sourceTag := some loc }).2, ?_, hu.2.1, hu.2.2.1, hu.2.2.2.1,
      hu.2.2.2.2.1, hu.2.2.2.2.2.1, hu.2.2.2.2.2.2.1,
      hu.2.2.2.2.2.2.2.1, hu.2.2.2.2.2.2.2.2⟩
    rw [heval]
    exact hu.1
  · intro env conns log body mac em loc hbm hmac hbe hem hemok hbl hloc
      hc0 hcase
    have hauto : tryAutoMapping env conns mac loc = (conns, none) := by
      rcases hcase with hfind | hup
      · simp [tryAutoMapping, hfind]
      · cases hfind2 : findConnectionsByAccountName env.sim conns loc
            ratThreshold with
        | nil => simp [tryAutoMapping, hfind2]
        | cons b r => simp [tryAutoMapping, hfind2, hup]
    have heval : webhookContact env conns log body =
        ⟨conns, log ++ [⟨mac, some em, false,
          some "No Mailchimp connection found"⟩], [], .notFound⟩ := by
      simp [webhookContact, hbm, hbe, hbl, jsTruthy, hmac, hem, hloc,
        hemok, hc0, hauto]
    exact ⟨by rw [heval], by rw [heval], by rw [heval]⟩

/-- Witness for C10 at concrete requests: with a similarity of 1 the
handler creates a connection for `new:mac` copying the matched row's
credentials, tags it with the supplied location name and syncs through it;
with a similarity of 0 the search is empty, the request is answered 404 and
nothing is created or synced. -/
theorem c10_webhook_automap_witness :
    ((∃ r ∈ (webhookContact ⟨fun _ _ => 1, 0, false, true⟩
        [⟨"old:mac", "TOK", "us6", "acc9", "Joes Pizza", some "aud9",
          some "Main", some "tag", 0, 0⟩] []
        ⟨some "new:mac", some "g@x.co", none,
          some "Joes Pizza - Main St"⟩).conns,
        r.mac_address = "new:mac" ∧ r.access_token = "TOK" ∧
        r.data_center = "us6" ∧ r.account_id = "acc9" ∧
        r.account_name = "Joes Pizza" ∧ r.audience_id = some "aud9" ∧
        r.audience_name = some "Main" ∧
        r.source_tag = some "Joes Pizza - Main St")
      ∧ (webhookContact ⟨fun _ _ => 1, 0, false, true⟩
          [⟨"old:mac", "TOK", "us6", "acc9", "Joes Pizza", some "aud9",
            some "Main", some "tag", 0, 0⟩] []
          ⟨some "new:mac", some "g@x.co", none,
            some "Joes Pizza - Main St"⟩).calls =
        [⟨"TOK", "us6", some "aud9", "g@x.co", ["Joes Pizza - Main St"]⟩])
    ∧ ((webhookContact ⟨fun _ _ => 0, 0, false, true⟩
          [⟨"old:mac", "TOK", "us6", "acc9", "Joes Pizza", some "aud9",
            some "Main", some "tag", 0, 0⟩] []
          ⟨some "new:mac", some "g@x.co", none,
            some "Joes Pizza - Main St"⟩).resp = .notFound
      ∧ (webhookContact ⟨fun _ _ => 0, 0, false, true⟩
          [⟨"old:mac", "TOK", "us6", "acc9", "Joes Pizza", some "aud9",
            some "Main", some "tag", 0, 0⟩] []
          ⟨some "new:mac", some "g@x.co", none,
            some "Joes Pizza - Main St"⟩).calls = []) := by
  constructor
  · have h := c10_webhook_automap.1 ⟨fun _ _ => 1, 0, false, true⟩
      [⟨"old:mac", "TOK", "us6", "acc9", "Joes Pizza", some "aud9",
        some "Main", some "tag", 0, 0⟩] []
      ⟨some "new:mac", some "g@x.co", none, some "Joes Pizza - Main St"⟩
      "new:mac" "g@x.co" "Joes Pizza - Main St"
      (⟨"old:mac", "TOK", "us6", "acc9", "Joes Pizza", some "aud9",
        some "Main", some "tag", 0, 0⟩, 1) []
      rfl (by decide) rfl (by decide) (by decide) rfl (by decide) rfl rfl
      rfl rfl
    exact ⟨h.1, h.2.1⟩
  · have h := c10_webhook_automap.2 ⟨fun _ _ => 0, 0, false, true⟩
      [⟨"old:mac", "TOK", "us6", "acc9", "Joes Pizza", some "aud9",
        some "Main", some "tag", 0, 0⟩] []
      ⟨some "new:mac", some "g@x.co", none, some "Joes Pizza - Main St"⟩
      "new:mac" "g@x.co" "Joes Pizza - Main St"
      rfl (by decide) rfl (by decide) (by decide) rfl (by decide) rfl
      (Or.inl rfl)
    exact ⟨h.1, h.2.2⟩

end MailchimpSync
